import Mathlib

/-!
Shallow embedding of the quiz-show game-session state machine of
`src/gamestate.rs` (svoyak_bot), together with proofs of the spec claims.

Rust types are translated as follows: `UserId` (an `i64`) and scores become
`Int`, `usize` becomes `Nat`, `String` stays `String` (Rust `String::len` is
the UTF-8 byte count, modelled by `utf8Len` below; `chars().count()` is
`String.length`), `HashMap<Player, i64>` (keyed by `Player`, whose `Eq`/`Hash`
compare the `id` field only) becomes an association list `List (Player × Int)`
with lookups by id, `HashSet<Player>` becomes a `List Player` with id-based
membership and insert-if-absent, and `Vec<UiRequest>` becomes
`List UiRequest`.  Rust's `HashMap`/`HashSet` iterate in an unspecified
order; the embedding is the deterministic refinement that iterates in
insertion order (this affects only intent-payload ordering and `start`'s
arbitrary choice of the initial player, never the properties proved here).  Methods that mutate `self` and return `Vec<UiRequest>`
become functions `GameState → ... → GameState × List UiRequest`.  The two
`panic!` sites (in `close_unanswered_question` / `close_answered_question`,
reached only when `current_player` is `None`) are modelled with an `Option`
result, `none` standing for the panic; the fallible callers (`yes_reply`,
`no_reply`, `timeout`) therefore also return an `Option`.
-/

namespace Svoyak

/-- Player: display name plus the opaque platform id (`telegram_bot::UserId`,
an `i64`).  In Rust `Player`'s `Eq`/`Hash` compare the id only; every map/set
operation below therefore compares ids explicitly. -/
structure Player where
  name : String
  id : Int
deriving DecidableEq, Repr

/-- Question: prompt, canonical answer, optional commentary, optional
image/audio attachment paths (`PathBuf` modelled as `String`).  The source
revision under `src/` declares only `image`; `gamestate.rs` also calls
`question.audio()`.  Modelled from the spec: the data model lists an
"optional image/audio attachment reference", so `audio` is included as an
extra optional field. -/
structure Question where
  question : String
  answer : String
  comments : Option String
  image : Option String
  audio : Option String
deriving DecidableEq, Repr

/-- Topic of a tour (questionsstorage.rs). -/
structure Topic where
  name : String
deriving DecidableEq, Repr

/-- TourDescription: cost multiplier plus ordered topic list. -/
structure TourDescription where
  multiplier : Nat
  topics : List Topic
deriving DecidableEq, Repr

/-- CatInBag substitution entry (questionsstorage.rs). -/
structure CatInBag where
  old_topic : String
  cost : Nat
  new_topic : String
  question : String
  answer : String
deriving DecidableEq, Repr

/-- The session states (the Rust `State` enum of gamestate.rs). -/
inductive State where
  | WaitingForPlayersToJoin
  | WaitingForTopic
  | WaitingForQuestion
  | BeforeQuestionAsked (q : Question) (cost : Int)
  | Falsestart (q : Question) (cost : Int)
  | CanAnswer (q : Question) (cost : Int)
  | WaitingForAuction (q : Question)
  | Answering (q : Question) (cost : Int) (anyone_can_answer : Bool)
  | CatInBagChoosingPlayer (topic : String) (q : Question)
  | CatInBagChoosingCost (q : Question)
  | Pause
deriving DecidableEq, Repr

/-- Delay buckets for scheduled timeouts. -/
inductive Delay where
  | Short
  | Medium
  | Long
deriving DecidableEq, Repr

/-- Score-table row: topic name paired with the cost list stored for it. -/
structure ScoreTableItem where
  name : String
  questions : List Nat
deriving DecidableEq, Repr

/-- Score table: the column costs plus one item per topic. -/
structure ScoreTable where
  scores : List Nat
  data : List ScoreTableItem
deriving DecidableEq, Repr

/-- Outbound UI intents (the Rust `UiRequest` enum). -/
inductive UiRequest where
  | SendTextToMainChat (s : String)
  | SendHtmlToMainChat (s : String)
  | SendImage (path : String)
  | SendAudio (path : String)
  | Timeout (text : Option String) (d : Delay)
  | ChooseTopic (player : String) (topics : List String)
  | ChooseQuestion (topic : String) (costs : List Nat)
  | AskAdminYesNo (prompt : String)
  | SendToAdmin (s : String)
  | SendScoreTable (t : ScoreTable)
  | StopTimer
  | CatInBagChoosePlayer (candidates : List Player)
  | CatInBagChooseCost (costs : List Nat)
deriving DecidableEq, Repr

/-- The session aggregate (the Rust `GameState` struct), field for field. -/
structure GameState where
  admin_user : Int
  state : State
  players : List (Player × Int)
  current_player : Option Player
  player_which_chose_question : Option Player
  questions : List (String × List Nat)
  players_falsestarted : List Player
  players_answered_current_question : List Player
  questions_per_topic : Nat
  tours : List TourDescription
  current_tour : Nat
  current_multiplier : Nat
  manual_questions : List (String × Nat)
  cats_in_bags : List CatInBag
  auctions : List (String × Nat)
deriving DecidableEq, Repr

/-- UTF-8 byte count of a string: the model of Rust `String::len`. -/
def utf8Len (s : String) : Nat :=
  s.data.foldl (fun n c => n + c.utf8Size) 0

/-- Modelled from the spec: the constant `CORRECT_ANSWER` is referenced by
`yes_reply` in gamestate.rs but is not defined anywhere under `src/`
(messages.rs of this revision only defines `INCORRECT_ANSWER` and a random
congratulation picker).  Its concrete value never matters for the claims. -/
def CORRECT_ANSWER : String := "Правильно!"

/-- The `INCORRECT_ANSWER` constant of messages.rs. -/
def INCORRECT_ANSWER : String := "Нет"

namespace GameState

/-- Rust `find_player`: first map key whose id matches. -/
def find_player (s : GameState) (id : Int) : Option Player :=
  (s.players.find? (fun pk => pk.1.id == id)).map Prod.fst

/-- Rust `find_player_by_name`: first map key whose name matches. -/
def find_player_by_name (s : GameState) (name : String) : Option Player :=
  (s.players.find? (fun pk => pk.1.name == name)).map Prod.fst

/-- Rust `is_current_player`. -/
def is_current_player (s : GameState) (id : Int) : Bool :=
  match s.current_player with
  | some p => p.id == id
  | none => false

/-- HashSet<Player> membership (Player equality is by id). -/
def setContains (l : List Player) (p : Player) : Bool :=
  l.any (fun q => q.id == p.id)

/-- HashSet<Player> insert: a no-op when a player with the same id is
already present. -/
def setInsert (l : List Player) (p : Player) : List Player :=
  if setContains l p then l else l ++ [p]

/-- HashMap<Player, i64> insert, keyed by id; like Rust's `HashMap::insert`
it keeps the original key when one is present. -/
def playersInsert : List (Player × Int) → Player → Int → List (Player × Int)
  | [], p, v => [(p, v)]
  | (q, w) :: rest, p, v =>
    if q.id == p.id then (q, v) :: rest
    else (q, w) :: playersInsert rest p v

/-- Add `delta` to the value of the first entry whose key has the given id
(Rust `players.get_mut(player)` followed by `*val += cost`); `none` when no
entry matches. -/
def updateScore : List (Player × Int) → Int → Int → Option (List (Player × Int))
  | [], _, _ => none
  | (q, w) :: rest, pid, delta =>
    if q.id == pid then some ((q, w + delta) :: rest)
    else (updateScore rest pid delta).map (fun l => (q, w) :: l)

/-- Rust `set_state`: stores the new state; entering `WaitingForQuestion`
clears the falsestarted and answered sets (all other arms only log). -/
def setState (s : GameState) (st : State) : GameState :=
  let s := { s with state := st }
  match st with
  | State.WaitingForQuestion =>
    { s with players_falsestarted := [], players_answered_current_question := [] }
  | _ => s

/-- Rust `update_current_player_score`. -/
def update_current_player_score (s : GameState) (cost : Int) :
    Except String GameState :=
  match s.current_player with
  | some player =>
    match updateScore s.players player.id cost with
    | some ps => Except.ok { s with players := ps }
    | none => Except.error ("current player is not in list of players")
  | none => Except.error ("internal error: current player is None!")

/-- Rust `get_score_str`. -/
def get_score_str (s : GameState) : String :=
  s.players.foldl
    (fun acc pk => acc ++ pk.1.name ++ ": " ++ toString pk.2 ++ "\n")
    ("Счет:\n")

/-- Rust `format_question` (it reads nothing from the session). -/
def format_question (question : Question) : List UiRequest :=
  (match question.image with
    | some img => [UiRequest.SendImage img]
    | none => []) ++
  (match question.audio with
    | some a => [UiRequest.SendAudio a]
    | none => []) ++
  [UiRequest.SendTextToMainChat question.question]

/-- Rust `add_player`. -/
def add_player (s : GameState) (new_user : Int) (name : String) :
    GameState × List UiRequest :=
  if s.state ≠ State.WaitingForPlayersToJoin then (s, [])
  else if (find_player s new_user).isSome then
    (s, [UiRequest.SendTextToMainChat ("Такой игрок уже существует")])
  else if (find_player_by_name s name).isSome then
    (s, [UiRequest.SendTextToMainChat ("Игрок с таким именем уже существует")])
  else
    ({ s with players := playersInsert s.players ⟨name, new_user⟩ 0 },
     [UiRequest.SendTextToMainChat ("Привет " ++ name)])

/-- Rust `reload_available_questions`. -/
def reload_available_questions (s : GameState) : GameState :=
  match s.tours.get? s.current_tour with
  | some tour =>
    { s with
      current_multiplier := tour.multiplier,
      questions := tour.topics.map (fun t =>
        (t.name, (List.range s.questions_per_topic).map
          (fun i => (i + 1) * tour.multiplier))) }
  | none => { s with questions := [] }

/-- Rust `start`. -/
def start (s : GameState) (user : Int) : GameState × List UiRequest :=
  if user ≠ s.admin_user then (s, [])
  else if s.state ≠ State.WaitingForPlayersToJoin then (s, [])
  else
    let s := { s with current_player := (s.players.map Prod.fst).head? }
    match s.current_player with
    | none =>
      (s, [UiRequest.SendTextToMainChat ("Ни одного игрока не зарегистрировалось!")])
    | some cp =>
      let s := { s with current_tour := 0 }
      let s := reload_available_questions s
      let s := setState s State.Pause
      (s, [UiRequest.SendTextToMainChat
             ("Здравствуйте, здравствуйте, добрый день! Это своя игра!"),
           UiRequest.SendTextToMainChat ("Игру начинает " ++ cp.name)])

/-- Rust `next_tour`. -/
def next_tour (s : GameState) (user : Int) : GameState × List UiRequest :=
  if user ≠ s.admin_user then (s, [])
  else if s.state ≠ State.Pause ∧ s.state ≠ State.WaitingForTopic then (s, [])
  else
    let s := { s with current_tour := s.current_tour + 1 }
    let s := reload_available_questions s
    (s, [UiRequest.SendTextToMainChat ("Переходим к следующему туру")])

/-- Rust `message` (a buzz). -/
def message (s : GameState) (user : Int) (_message : String) :
    GameState × List UiRequest :=
  match s.state with
  | State.Falsestart _ _ =>
    match find_player s user with
    | some player =>
      ({ s with players_falsestarted := setInsert s.players_falsestarted player },
       [UiRequest.SendTextToMainChat ("Фальшстарт " ++ player.name)])
    | none => (s, [])
  | State.CanAnswer question cost =>
    match find_player s user with
    | some player =>
      if setContains s.players_answered_current_question player then (s, [])
      else if setContains s.players_falsestarted player then (s, [])
      else
        let s := { s with
          current_player := some player,
          players_answered_current_question :=
            setInsert s.players_answered_current_question player }
        let s := setState s (State.Answering question cost true)
        (s, [UiRequest.StopTimer,
             UiRequest.SendTextToMainChat ("Отвечает " ++ player.name),
             UiRequest.AskAdminYesNo ("Correct answer?")])
    | none => (s, [])
  | _ => (s, [])

/-- Rust `make_score_table`: the column scores are `tier * multiplier` for
tiers `1..=questions_per_topic`, and each topic is paired with the cost list
currently stored for it in `self.questions` (the still-available costs). -/
def make_score_table (s : GameState) : ScoreTable :=
  { scores := (List.range s.questions_per_topic).map
      (fun i => (i + 1) * s.current_multiplier),
    data := s.questions.map (fun tq => { name := tq.1, questions := tq.2 }) }

/-- Rust `next_question`: note that the source checks the caller and the
presence of a `current_player` but never the session state. -/
def next_question (s : GameState) (user : Int) : GameState × List UiRequest :=
  if user ≠ s.admin_user then (s, [])
  else
    match s.current_player with
    | none => (s, [])
    | some player =>
      let current_player_name := player.name
      let s := setState s State.WaitingForTopic
      let topics := (s.questions.filter (fun tc => !tc.2.isEmpty)).map Prod.fst
      (s, [UiRequest.SendScoreTable (make_score_table s),
           UiRequest.ChooseTopic current_player_name topics])

/-- Rust `close_unanswered_question`; `none` models the `panic!` reached when
`player_which_chose_question` is `None`. -/
def close_unanswered_question (s : GameState) (question : Question)
    (reason : Option String) : Option (GameState × List UiRequest) :=
  let s := setState s State.Pause
  let s := { s with current_player := s.player_which_chose_question }
  let score_msg := get_score_str s
  match s.current_player with
  | none => none
  | some player =>
    let msg := "Правильный ответ: " ++ question.answer ++ "\n"
    let msg :=
      match question.comments with
      | some comments =>
        if comments.length > 0 then msg ++ "Комментарий:" ++ comments ++ "\n"
        else msg
      | none => msg
    let msg := msg ++ score_msg ++ "\nСледующий вопрос выбирает " ++ player.name
    match reason with
    | some reason_message =>
      some (s, [UiRequest.SendTextToMainChat reason_message,
                UiRequest.SendTextToMainChat msg])
    | none => some (s, [UiRequest.SendTextToMainChat msg])

/-- Rust `close_answered_question`; `none` models the `panic!` reached when
`current_player` is `None`. -/
def close_answered_question (s : GameState) (reason : Option String) :
    Option (GameState × List UiRequest) :=
  let s := setState s State.Pause
  let s := { s with player_which_chose_question := none }
  let msg := get_score_str s
  match s.current_player with
  | none => none
  | some player =>
    let msg := msg ++ "\n" ++ "Игру продолжает " ++ player.name
    match reason with
    | some reason_message =>
      some (s, [UiRequest.SendTextToMainChat (reason_message ++ "\n" ++ msg)])
    | none => some (s, [UiRequest.SendTextToMainChat msg])

/-- Rust `yes_reply`. -/
def yes_reply (s : GameState) (user : Int) : Option (GameState × List UiRequest) :=
  if user ≠ s.admin_user then some (s, [])
  else
    match s.state with
    | State.Answering question cost _ =>
      let message :=
        match question.comments with
        | some comments =>
          if comments.length > 0 then
            CORRECT_ANSWER ++ "\nКомментарий: " ++ comments
          else CORRECT_ANSWER
        | none => CORRECT_ANSWER
      match update_current_player_score s cost with
      | Except.ok s2 => close_answered_question s2 (some message)
      | Except.error _ => some (s, [])
    | _ => some (s, [])

/-- Rust `no_reply`. -/
def no_reply (s : GameState) (user : Int) : Option (GameState × List UiRequest) :=
  if user ≠ s.admin_user then some (s, [])
  else
    match s.state with
    | State.Answering question cost anyone_can_answer =>
      match update_current_player_score s (-cost) with
      | Except.ok s2 =>
        if anyone_can_answer then
          if s2.players_answered_current_question.length ≠ s2.players.length then
            let s3 := setState s2 (State.CanAnswer question cost)
            let s3 := { s3 with players_falsestarted := [] }
            some (s3, [UiRequest.SendTextToMainChat INCORRECT_ANSWER,
                       UiRequest.Timeout none Delay.Long])
          else
            close_unanswered_question s2 question
              (some ("Все попытались, но ни у кого не получилось"))
        else
          close_unanswered_question s2 question (some ("Нет"))
      | Except.error _ => some (s, [])
    | _ => some (s, [])

/-- Rust `timeout`; the falsestart-window delay bucket is chosen from the
presence of an image and from `question.question().len()`, the UTF-8 byte
count of the question text. -/
def timeout (s : GameState) : Option (GameState × List UiRequest) :=
  match s.state with
  | State.BeforeQuestionAsked question cost =>
    let s := setState s (State.Falsestart question cost)
    let delay :=
      if question.image.isSome then Delay.Long
      else if utf8Len question.question ≤ 100 then Delay.Short
      else if utf8Len question.question ≤ 230 then Delay.Medium
      else Delay.Long
    some (s, format_question question ++ [UiRequest.Timeout (some ("!")) delay])
  | State.Falsestart question cost =>
    some (setState s (State.CanAnswer question cost),
          [UiRequest.Timeout none Delay.Long])
  | State.CanAnswer question _ =>
    close_unanswered_question s question (some ("Время на ответ вышло!"))
  | _ => some (s, [])

/-- Rust `select_topic`. -/
def select_topic (s : GameState) (topic : String) (user : Int) :
    GameState × List UiRequest :=
  if s.state ≠ State.WaitingForTopic then (s, [])
  else if !is_current_player s user then (s, [])
  else
    match s.questions.find? (fun tc => tc.1 == topic) with
    | some tc =>
      if !tc.2.isEmpty then
        (setState s State.WaitingForQuestion,
         [UiRequest.ChooseQuestion topic tc.2])
      else (s, [])
    | none => (s, [])

/-- The board-mutating loop at the head of Rust `select_question`: walks the
entries; at every entry whose topic matches, removes `cost` when present and
otherwise returns early (`aborted = true`), leaving the remaining entries
untouched (entries already walked keep their mutation).  Returns the new
entry list, the `found` flag, and whether the loop returned early. -/
def takeCost : List (String × List Nat) → String → Nat →
    List (String × List Nat) × Bool × Bool
  | [], _, _ => ([], false, false)
  | (t, costs) :: rest, topic, cost =>
    if t == topic then
      if costs.contains cost then
        let r := takeCost rest topic cost
        ((t, costs.filter (fun e => e ≠ cost)) :: r.1, true, r.2.2)
      else ((t, costs) :: rest, true, true)
    else
      let r := takeCost rest topic cost
      ((t, costs) :: r.1, r.2.1, r.2.2)

/-- Rust `is_manual`. -/
def is_manual (s : GameState) (cur_topic : String) (cur_cost : Nat) : Bool :=
  s.manual_questions.any (fun tc => tc.1 == cur_topic && tc.2 == cur_cost)

/-- Rust `is_auction`. -/
def is_auction (s : GameState) (cur_topic : String) (cur_cost : Nat) : Bool :=
  s.auctions.any (fun tc => tc.1 == cur_topic && tc.2 == cur_cost)

/-- Rust `is_cat_in_bag`: first matching substitution entry, packaged as the
substitute topic plus a question built from the entry (no comments, image or
audio). -/
def is_cat_in_bag (s : GameState) (cur_topic : String) (cur_cost : Nat) :
    Option (String × Question) :=
  (s.cats_in_bags.find?
    (fun cib => cib.old_topic == cur_topic && cib.cost == cur_cost)).map
    (fun cib =>
      (cib.new_topic,
       { question := cib.question, answer := cib.answer,
         comments := none, image := none, audio := none }))

/-- Rust `select_question`; `qstore` is the question-source collaborator's
`get(topic, difficulty)`. -/
def select_question (s : GameState) (topic : String) (cost : Nat) (user : Int)
    (qstore : String → Nat → Option Question) : GameState × List UiRequest :=
  if s.state ≠ State.WaitingForQuestion then (s, [])
  else if !is_current_player s user then (s, [])
  else
    let r := takeCost s.questions topic cost
    let s := { s with questions := r.1 }
    if r.2.2 then (s, [])
    else if !r.2.1 then (s, [])
    else
      let reply := [UiRequest.SendTextToMainChat
        ("Играем тему " ++ topic ++ ", вопрос за " ++ toString cost)]
      match is_cat_in_bag s topic cost with
      | some nq =>
        let s := setState s (State.CatInBagChoosingPlayer nq.1 nq.2)
        (s, reply ++
          [UiRequest.SendToAdmin
             ("question: " ++ nq.2.question ++ "\nanswer: " ++ nq.2.answer),
           UiRequest.SendTextToMainChat ("Кот в мешке!"),
           UiRequest.CatInBagChoosePlayer
             ((s.players.map Prod.fst).filter (fun p =>
               match s.current_player with
               | some cp => p.id ≠ cp.id
               | none => true))])
      | none =>
        match qstore topic (cost / s.current_multiplier) with
        | some question =>
          let reply := reply ++
            [UiRequest.SendToAdmin
               ("question: " ++ question.question ++ "\nanswer: " ++ question.answer)]
          if is_manual s topic cost then
            (setState s State.Pause,
             reply ++ [UiRequest.SendTextToMainChat ("Вопрос играется вручную")])
          else if is_auction s topic cost then
            let s := setState s (State.WaitingForAuction question)
            (s, reply ++
              [UiRequest.SendTextToMainChat ("Аукцион!\n" ++ get_score_str s)])
          else
            let s := setState s
              (State.BeforeQuestionAsked question (Int.ofNat cost))
            let s := { s with player_which_chose_question := s.current_player }
            (s, reply ++ [UiRequest.Timeout none Delay.Medium])
        | none => (s, [])

/-- Rust `update_auction_cost`. -/
def update_auction_cost (s : GameState) (maybe_admin : Int) (name : String)
    (cost : Nat) : GameState × List UiRequest :=
  if maybe_admin ≠ s.admin_user then (s, [])
  else
    match s.state with
    | State.WaitingForAuction question =>
      match find_player_by_name s name with
      | some player =>
        let s := { s with current_player := some player }
        let s := { s with player_which_chose_question := s.current_player }
        let s := setState s (State.Answering question (Int.ofNat cost) false)
        (s, [UiRequest.SendTextToMainChat
               ("Играем аукцион с " ++ name ++ ", стоимость " ++ toString cost)] ++
            format_question question ++
            [UiRequest.AskAdminYesNo ("Correct answer?")])
      | none => (s, [])
    | _ => (s, [])

/-- Rust `select_cat_in_bag_player`: scans the roster, skipping the caller
(self-selection is forbidden), for a player with the chosen name. -/
def select_cat_in_bag_player (s : GameState) (user : Int)
    (selected_player : String) : GameState × List UiRequest :=
  match s.state with
  | State.CatInBagChoosingPlayer topic question =>
    if some user ≠ s.current_player.map Player.id then (s, [])
    else
      match (s.players.map Prod.fst).find?
          (fun p => p.id ≠ user && p.name == selected_player) with
      | some player =>
        let s := { s with
          current_player := some player,
          player_which_chose_question := some player }
        let s := setState s (State.CatInBagChoosingCost question)
        (s, [UiRequest.SendTextToMainChat
               ("Играем с " ++ player.name ++ ". Тема: " ++ topic),
             UiRequest.CatInBagChooseCost
               [s.current_multiplier,
                s.current_multiplier * s.questions_per_topic]])
      | none => (s, [])
  | _ => (s, [])

/-- Rust `select_cat_in_bag_cost`. -/
def select_cat_in_bag_cost (s : GameState) (user : Int) (cost : Nat) :
    GameState × List UiRequest :=
  match s.state with
  | State.CatInBagChoosingCost question =>
    if some user ≠ s.current_player.map Player.id then (s, [])
    else if cost ≠ s.current_multiplier ∧
        cost ≠ s.current_multiplier * s.questions_per_topic then (s, [])
    else
      let s := setState s (State.Answering question (Int.ofNat cost) false)
      (s, [UiRequest.SendTextToMainChat ("Выбрана стоимость " ++ toString cost)] ++
          format_question question ++
          [UiRequest.AskAdminYesNo ("Correct answer?")])
  | _ => (s, [])

/-- Rust `get_score`. -/
def get_score (s : GameState) (_user : Int) : GameState × List UiRequest :=
  (s, [UiRequest.SendTextToMainChat (get_score_str s)])

/-- Rust `current_player` status query. -/
def current_player_query (s : GameState) (_user : Int) :
    GameState × List UiRequest :=
  match s.current_player with
  | some player => (s, [UiRequest.SendTextToMainChat player.name])
  | none => (s, [UiRequest.SendTextToMainChat ("No current player!")])

/-- Rust `change_player`. -/
def change_player (s : GameState) (user : Int) (name : String) :
    GameState × List UiRequest :=
  if user ≠ s.admin_user then (s, [])
  else
    match find_player_by_name s name with
    | some player =>
      ({ s with current_player := some player },
       [UiRequest.SendTextToMainChat ("Играет " ++ name)])
    | none =>
      (s, [UiRequest.SendTextToMainChat ("Игрок " ++ name ++ " не найден")])

/-- Set the value of the first entry whose key has the given id; the list is
unchanged when none matches (Rust `update_score`'s `get_mut` arm). -/
def setScoreById : List (Player × Int) → Int → Int → List (Player × Int)
  | [], _, _ => []
  | (q, w) :: rest, pid, v =>
    if q.id == pid then (q, v) :: rest
    else (q, w) :: setScoreById rest pid v

/-- Rust `update_score` (absolute override). -/
def update_score (s : GameState) (name : String) (newscore : Int) (user : Int) :
    GameState × List UiRequest :=
  if user ≠ s.admin_user then (s, [])
  else
    match find_player_by_name s name with
    | some player =>
      ({ s with players := setScoreById s.players player.id newscore }, [])
    | none => (s, [])

/-- The board-mutating loop of Rust `hide_question`: like `takeCost` but a
missing cost at a matching entry `break`s (stops, keeping earlier mutations)
instead of returning early; the second component is the `found` flag. -/
def hideCost : List (String × List Nat) → String → Nat →
    List (String × List Nat) × Bool
  | [], _, _ => ([], false)
  | (t, costs) :: rest, topic, cost =>
    if t == topic then
      if costs.contains cost then
        let r := hideCost rest topic cost
        ((t, costs.filter (fun e => e ≠ cost)) :: r.1, true)
      else ((t, costs) :: rest, false)
    else
      let r := hideCost rest topic cost
      ((t, costs) :: r.1, r.2)

/-- Rust `hide_question` (note: the source never checks the session state
here). -/
def hide_question (s : GameState) (topic : String) (cost : Nat) (user : Int) :
    GameState × List UiRequest :=
  if user ≠ s.admin_user then (s, [])
  else ({ s with questions := (hideCost s.questions topic cost).1 }, [])

/-- Test-suite helper `get_player_score`: the score stored for the player
with the given id. -/
def get_player_score (s : GameState) (id : Int) : Option Int :=
  (s.players.find? (fun pk => pk.1.id == id)).map Prod.snd

end GameState

/-- Does the board hold `cost` among the still-available costs of an entry
named `topic`? -/
def boardHas (qs : List (String × List Nat)) (topic : String) (cost : Nat) : Bool :=
  qs.any (fun tc => tc.1 == topic && tc.2.contains cost)

/-- Availability of a `(topic, cost)` cell on the session's Question Board. -/
def GameState.costAvailable (s : GameState) (topic : String) (cost : Nat) : Bool :=
  boardHas s.questions topic cost

/-- Inbound actions of the session state machine, one constructor per public
entry point of gamestate.rs. -/
inductive Action where
  | add_player (user : Int) (name : String)
  | start (user : Int)
  | next_tour (user : Int)
  | next_question (user : Int)
  | select_topic (topic : String) (user : Int)
  | select_question (topic : String) (cost : Nat) (user : Int)
  | message (user : Int) (text : String)
  | yes_reply (user : Int)
  | no_reply (user : Int)
  | timeout
  | update_auction_cost (user : Int) (name : String) (cost : Nat)
  | select_cat_in_bag_player (user : Int) (name : String)
  | select_cat_in_bag_cost (user : Int) (cost : Nat)
  | update_score (name : String) (newscore : Int) (user : Int)
  | change_player (user : Int) (name : String)
  | hide_question (topic : String) (cost : Nat) (user : Int)
  | get_score (user : Int)
  | current_player_query (user : Int)

/-- The two actions that rebuild the Question Board from a tour definition
(`reload_available_questions`), thereby starting a fresh tour board. -/
def Action.reloads_board : Action → Bool
  | Action.start _ => true
  | Action.next_tour _ => true
  | _ => false

/-- One step of the session: dispatches an action to the corresponding
gamestate.rs entry point (`none` models a `panic!`). -/
def GameState.applyAction (s : GameState) (a : Action)
    (qstore : String → Nat → Option Question) :
    Option (GameState × List UiRequest) :=
  match a with
  | Action.add_player u n => some (s.add_player u n)
  | Action.start u => some (s.start u)
  | Action.next_tour u => some (s.next_tour u)
  | Action.next_question u => some (s.next_question u)
  | Action.select_topic t u => some (s.select_topic t u)
  | Action.select_question t c u => some (s.select_question t c u qstore)
  | Action.message u txt => some (s.message u txt)
  | Action.yes_reply u => s.yes_reply u
  | Action.no_reply u => s.no_reply u
  | Action.timeout => s.timeout
  | Action.update_auction_cost u n c => some (s.update_auction_cost u n c)
  | Action.select_cat_in_bag_player u n => some (s.select_cat_in_bag_player u n)
  | Action.select_cat_in_bag_cost u c => some (s.select_cat_in_bag_cost u c)
  | Action.update_score n v u => some (s.update_score n v u)
  | Action.change_player u n => some (s.change_player u n)
  | Action.hide_question t c u => some (s.hide_question t c u)
  | Action.get_score u => some (s.get_score u)
  | Action.current_player_query u => some (s.current_player_query u)

/-- One incorrect-answer round trip of the normal flow: the player buzzes
(`message`) and the admin judges the answer wrong (`no_reply`). -/
def GameState.buzz_then_no (s : GameState) (p : Player) : Option GameState :=
  (GameState.no_reply (GameState.message s p.id ("1")).1 s.admin_user).map Prod.fst

/-- Runs `buzz_then_no` for each listed player in order; `none` models a
`panic!` somewhere along the way. -/
def GameState.run_all_wrong : GameState → List Player → Option GameState
  | s, [] => some s
  | s, p :: rest =>
    match GameState.buzz_then_no s p with
    | some s2 => GameState.run_all_wrong s2 rest
    | none => none

/-- ScoreTable::to_string (gamestate.rs): pipe-delimited grid, one row per
topic; the common topic width is the maximum `chars().count()` of the names;
an `x` is printed in a column when that column's cost occurs in the item's
stored cost list, a space otherwise. -/
def ScoreTable.to_string (t : ScoreTable) : String :=
  let topic_length := t.data.foldl
    (fun acc item => if item.name.length > acc then item.name.length else acc) 0
  let rows := t.data.map (fun item =>
    let row := "|" ++ item.name
    let row := row ++ String.mk (List.replicate (topic_length + 1 - row.length) ' ')
    let row := row ++ "|"
    t.scores.foldl (fun row score =>
      (if item.questions.any (fun q => q == score) then row ++ "x"
       else row ++ " ") ++ "|") row)
  String.intercalate "\n" rows

/-- Spec-side rendering of the score table, written from the amended claim:
a pipe-delimited grid, one row per topic; each topic name is left-justified
and padded with spaces on the right to the width of the longest name
(measured in characters); each column prints `x` when that column's cost is
among the costs stored for the topic (the still-available ones) and a space
otherwise. -/
def scoreTableRenderSpec (t : ScoreTable) : String :=
  let width := (t.data.map (fun item => item.name.length)).foldl max 0
  String.intercalate "\n" (t.data.map (fun item =>
    "|" ++ item.name ++ String.mk (List.replicate (width - item.name.length) ' ') ++
    "|" ++
    String.join (t.scores.map (fun c =>
      (if item.questions.contains c then "x" else " ") ++ "|"))))

/-- Spec-side delay bucket for the falsestart window, written from the
amended claim: long when an image is attached, otherwise chosen from the
UTF-8 byte length of the question text — short for at most 100 bytes, medium
for at most 230 bytes, long otherwise. -/
def delayBucket (q : Question) : Delay :=
  if q.image.isSome then Delay.Long
  else if utf8Len q.question ≤ 100 then Delay.Short
  else if utf8Len q.question ≤ 230 then Delay.Medium
  else Delay.Long

/-! Concrete fixtures used by the witnesses and counterexamples below.  They
replay the scenario of the gamestate.rs test-suite: admin `1`, players
`new_1` (id 2) and `new_2` (id 3), one tour of topic `Sport` with
multiplier 100 and five questions per topic. -/

/-- Fixture: the first registered player. -/
def fixP1 : Player := ⟨"new_1", 2⟩

/-- Fixture: the second registered player. -/
def fixP2 : Player := ⟨"new_2", 3⟩

/-- Fixture: the question served by the fixture question source. -/
def sampleQ : Question := ⟨"2 * 2 = ?", "4", none, none, none⟩

/-- Fixture question source: every (topic, tier) yields `sampleQ`. -/
def qstoreS : String → Nat → Option Question := fun _ _ => some sampleQ

/-- Fixture question source that never finds a question. -/
def qstoreNone : String → Nat → Option Question := fun _ _ => none

/-- Fixture: the freshly constructed session, before anyone joined. -/
def fixNew : GameState := {
  admin_user := 1, state := State.WaitingForPlayersToJoin,
  players := [], current_player := none,
  player_which_chose_question := none,
  questions := [],
  players_falsestarted := [], players_answered_current_question := [],
  questions_per_topic := 5,
  tours := [⟨100, [⟨"Sport"⟩]⟩, ⟨200, [⟨"Movies"⟩]⟩],
  current_tour := 0, current_multiplier := 0,
  manual_questions := [], cats_in_bags := [], auctions := [] }

/-- Fixture: both players joined, game not yet started (state
`WaitingForPlayersToJoin`). -/
def fixNew2 : GameState :=
  ((fixNew.add_player 2 ("new_1")).1.add_player 3 ("new_2")).1

/-- Fixture: both players joined and the game started (state `Pause`). -/
def fixBase : GameState :=
  (GameState.start ((fixNew.add_player 2 ("new_1")).1.add_player 3 ("new_2")).1 1).1

/-- Fixture: after `next_question` (state `WaitingForTopic`). -/
def fixWaitTopic : GameState := (fixBase.next_question 1).1

/-- Fixture: after player 1 chose topic Sport (state `WaitingForQuestion`). -/
def fixWaitQuestion : GameState := (fixWaitTopic.select_topic ("Sport") 2).1

/-- Fixture: after player 1 selected Sport for 100 (state
`BeforeQuestionAsked`, cost 100 taken from the board, chooser = player 1). -/
def fixBefore : GameState := (fixWaitQuestion.select_question ("Sport") 100 2 qstoreS).1

/-- Fixture: after the first timeout (state `Falsestart`). -/
def fixFalsestart : GameState := ((fixBefore.timeout).map Prod.fst).getD fixNew

/-- Fixture: after the second timeout (state `CanAnswer`). -/
def fixCanAnswer : GameState := ((fixFalsestart.timeout).map Prod.fst).getD fixNew

/-- Fixture: player 1 buzzed (state `Answering`, anyone can answer). -/
def fixAnswering : GameState := (fixCanAnswer.message 2 ("1")).1

/-- Fixture: player 1 buzzed and was judged wrong (state `CanAnswer` again,
player 1 recorded in the answered set). -/
def fixCanAnswerAfterNo : GameState :=
  ((fixAnswering.no_reply 1).map Prod.fst).getD fixNew

/-- Fixture: an auction session — like `fixBase` but `(Sport, 100)` flagged
as an auction, then played up to `WaitingForAuction`. -/
def fixAuction : GameState :=
  let s := { fixBase with auctions := [("Sport", 100)] }
  ((((s.next_question 1).1.select_topic ("Sport") 2).1).select_question
    ("Sport") 100 2 qstoreS).1

/-- Fixture: the substitute cat-in-bag question of `fixCatInBag`. -/
def cibQ : Question := ⟨"question", "answer", none, none, none⟩

/-- Fixture: a cat-in-bag session — like `fixBase` but `(Sport, 100)` is a
cat in a bag, played up to `CatInBagChoosingPlayer`. -/
def fixCatInBag : GameState :=
  let s := { fixBase with
    cats_in_bags := [⟨"Sport", 100, "CatInBag", "question", "answer"⟩] }
  ((((s.next_question 1).1.select_topic ("Sport") 2).1).select_question
    ("Sport") 100 2 qstoreS).1

/-- Fixture: a question whose text is 60 Cyrillic characters (120 UTF-8
bytes) with no image. -/
def qCyr : Question := ⟨String.mk (List.replicate 60 'ы'), "a", none, none, none⟩

/-- Fixture: `fixWaitQuestion` about to ask `qCyr` (state
`BeforeQuestionAsked`). -/
def fixBeforeCyr : GameState :=
  { fixWaitQuestion with state := State.BeforeQuestionAsked qCyr 100 }

end Svoyak

/-! Helper lemmas about the roster association list. -/

namespace Svoyak

open GameState

theorem find_by_id_of_mem (l : List (Player × Int)) (pid : Int)
    (h : pid ∈ l.map (fun pk => pk.1.id)) :
    ∃ pk, l.find? (fun pk => pk.1.id == pid) = some pk ∧ pk.1.id = pid := by
  induction l with
  | nil => simp at h
  | cons hd tl ih =>
    by_cases hh : hd.1.id = pid
    · exact ⟨hd, List.find?_cons_of_pos _ (by simp [hh]), hh⟩
    · have hmem : pid ∈ tl.map (fun pk => pk.1.id) := by
        simp at h
        rcases h with h | h
        · exact absurd h.symm hh
        · simpa using h
      rcases ih hmem with ⟨pk, hfind, hid⟩
      exact ⟨pk, by rw [List.find?_cons_of_neg _ (by simp [hh])]; exact hfind, hid⟩

theorem updateScore_of_find (l : List (Player × Int)) (pid : Int) (δ : Int)
    (pk : Player × Int) (h : l.find? (fun e => e.1.id == pid) = some pk) :
    ∃ l', updateScore l pid δ = some l' ∧
      l'.find? (fun e => e.1.id == pid) = some (pk.1, pk.2 + δ) ∧
      l'.map Prod.fst = l.map Prod.fst := by
  induction l with
  | nil => simp [List.find?] at h
  | cons hd tl ih =>
    by_cases hh : hd.1.id = pid
    · rw [List.find?_cons_of_pos _ (by simp [hh])] at h
      obtain rfl : hd = pk := by injection h
      refine ⟨(hd.1, hd.2 + δ) :: tl, ?_, ?_, by simp⟩
      · simp [updateScore, hh]
      · exact List.find?_cons_of_pos _ (by simp [hh])
    · rw [List.find?_cons_of_neg _ (by simp [hh])] at h
      rcases ih h with ⟨l', hupd, hfind, hmap⟩
      refine ⟨(hd.1, hd.2) :: l', ?_, ?_, by simp [hmap]⟩
      · simp [updateScore, hh, hupd]
      · rw [List.find?_cons_of_neg _ (by simp [hh])]; exact hfind

theorem updateScore_some (l : List (Player × Int)) (pid : Int) (δ : Int)
    (h : pid ∈ l.map (fun pk => pk.1.id)) :
    ∃ l', updateScore l pid δ = some l' ∧ l'.map Prod.fst = l.map Prod.fst := by
  rcases find_by_id_of_mem l pid h with ⟨pk, hfind, _⟩
  rcases updateScore_of_find l pid δ pk hfind with ⟨l', hupd, _, hmap⟩
  exact ⟨l', hupd, hmap⟩

theorem playersInsert_fresh (l : List (Player × Int)) (p : Player) (v : Int)
    (h : l.find? (fun pk => pk.1.id == p.id) = none) :
    playersInsert l p v = l ++ [(p, v)] := by
  induction l with
  | nil => simp [playersInsert]
  | cons hd tl ih =>
    by_cases hh : hd.1.id = p.id
    · rw [List.find?_cons_of_pos _ (by simp [hh])] at h
      cases h
    · rw [List.find?_cons_of_neg _ (by simp [hh])] at h
      simp [playersInsert, hh, ih h]

/-! Step equations for the buzz / judgment cycle. -/

theorem message_canAnswer_eq (s : GameState) (q : Question) (cost : Int)
    (uid : Int) (p : Player) (m : String)
    (hstate : s.state = State.CanAnswer q cost)
    (hfind : find_player s uid = some p)
    (hna : setContains s.players_answered_current_question p = false)
    (hnf : setContains s.players_falsestarted p = false) :
    message s uid m =
      ({ s with current_player := some p,
                players_answered_current_question :=
                  s.players_answered_current_question ++ [p],
                state := State.Answering q cost true },
       [UiRequest.StopTimer,
        UiRequest.SendTextToMainChat ("Отвечает " ++ p.name),
        UiRequest.AskAdminYesNo ("Correct answer?")]) := by
  simp [message, hstate, hfind, setState, setInsert, hna, hnf]

end Svoyak

namespace Svoyak

open GameState

theorem map_fst_some {α β : Type} {x : Option (α × β)} {r : α}
    (h : x.map Prod.fst = some r) : ∃ out, x = some (r, out) := by
  cases x with
  | none => simp at h
  | some v =>
    simp at h
    exact ⟨v.2, by simp [← h]⟩

theorem no_reply_continue_eq (s : GameState) (q : Question) (cost : Int)
    (p : Player) (ps : List (Player × Int)) (u : Int)
    (hu : u = s.admin_user)
    (hstate : s.state = State.Answering q cost true)
    (hcp : s.current_player = some p)
    (hup : updateScore s.players p.id (-cost) = some ps)
    (hlen : s.players_answered_current_question.length ≠ ps.length) :
    no_reply s u =
      some ({ s with players := ps, state := State.CanAnswer q cost,
                     players_falsestarted := [] },
            [UiRequest.SendTextToMainChat INCORRECT_ANSWER,
             UiRequest.Timeout none Delay.Long]) := by
  subst hu
  simp [no_reply, hstate, update_current_player_score, hcp, hup, setState, hlen]

theorem no_reply_close_all_eq (s : GameState) (q : Question) (cost : Int)
    (p c : Player) (ps : List (Player × Int)) (u : Int)
    (hu : u = s.admin_user)
    (hstate : s.state = State.Answering q cost true)
    (hcp : s.current_player = some p)
    (hup : updateScore s.players p.id (-cost) = some ps)
    (hlen : s.players_answered_current_question.length = ps.length)
    (hch : s.player_which_chose_question = some c) :
    (no_reply s u).map Prod.fst =
      some ({ s with players := ps, state := State.Pause,
                     current_player := some c }) := by
  subst hu
  simp [no_reply, hstate, update_current_player_score, hcp, hup, hlen,
        close_unanswered_question, setState, hch]

theorem no_reply_close_single_eq (s : GameState) (q : Question) (cost : Int)
    (p c : Player) (ps : List (Player × Int)) (u : Int)
    (hu : u = s.admin_user)
    (hstate : s.state = State.Answering q cost false)
    (hcp : s.current_player = some p)
    (hup : updateScore s.players p.id (-cost) = some ps)
    (hch : s.player_which_chose_question = some c) :
    (no_reply s u).map Prod.fst =
      some ({ s with players := ps, state := State.Pause,
                     current_player := some c }) := by
  subst hu
  simp [no_reply, hstate, update_current_player_score, hcp, hup,
        close_unanswered_question, setState, hch]

theorem yes_reply_close_eq (s : GameState) (q : Question) (cost : Int)
    (b : Bool) (p : Player) (ps : List (Player × Int)) (u : Int)
    (hu : u = s.admin_user)
    (hstate : s.state = State.Answering q cost b)
    (hcp : s.current_player = some p)
    (hup : updateScore s.players p.id cost = some ps) :
    (yes_reply s u).map Prod.fst =
      some ({ s with players := ps, state := State.Pause,
                     player_which_chose_question := none }) := by
  subst hu
  simp [yes_reply, hstate, update_current_player_score, hcp, hup,
        close_answered_question, setState]

end Svoyak

namespace Svoyak

open GameState

/-- C2: from any `Answering(question, cost, _)` state, an admin `yes_reply`
credits the current player with exactly `cost`, clears the chooser
reference, returns the session to `Pause`, and leaves `current_player`
unchanged (the player who buzzed keeps the turn, chooser or not). -/
theorem turn_capture_on_success (s : GameState) (q : Question) (cost : Int)
    (b : Bool) (p : Player) (sc : Int)
    (hstate : s.state = State.Answering q cost b)
    (hcp : s.current_player = some p)
    (hsc : get_player_score s p.id = some sc) :
    ∃ s2 out, yes_reply s s.admin_user = some (s2, out) ∧
      s2.state = State.Pause ∧
      s2.player_which_chose_question = none ∧
      s2.current_player = some p ∧
      get_player_score s2 p.id = some (sc + cost) := by
  unfold get_player_score at hsc
  rcases Option.map_eq_some'.mp hsc with ⟨pk, hfind, hval⟩
  rcases updateScore_of_find s.players p.id cost pk hfind with
    ⟨ps, hup, hfind2, _⟩
  have hmap := yes_reply_close_eq s q cost b p ps s.admin_user rfl hstate hcp hup
  rcases map_fst_some hmap with ⟨out, heq⟩
  refine ⟨_, out, heq, by simp, by simp, by simp [hcp], ?_⟩
  simp [get_player_score, hfind2, hval]

/-- Witness for C2 at the fixture state: player 1 buzzed on the 100-point
Sport question and is judged correct; their score goes from 0 to 100. -/
theorem turn_capture_on_success_witness :
    ∃ s2 out, yes_reply fixAnswering fixAnswering.admin_user = some (s2, out) ∧
      s2.state = State.Pause ∧
      s2.player_which_chose_question = none ∧
      s2.current_player = some fixP1 ∧
      get_player_score s2 fixP1.id = some (0 + 100) :=
  turn_capture_on_success fixAnswering sampleQ 100 true fixP1 0
    (by decide) (by decide) (by decide)

/-- C7: while the state is `CanAnswer`, a buzz from a registered player who
is already recorded as answered or as falsestarted for the live question
returns the session completely unchanged and emits no intents. -/
theorem no_double_buzz (s : GameState) (q : Question) (cost : Int)
    (user : Int) (p : Player) (txt : String)
    (hstate : s.state = State.CanAnswer q cost)
    (hfind : find_player s user = some p)
    (hdone : setContains s.players_answered_current_question p = true ∨
             setContains s.players_falsestarted p = true) :
    message s user txt = (s, []) := by
  rcases hdone with h | h
  · simp [message, hstate, hfind, h]
  · by_cases ha : setContains s.players_answered_current_question p
    · simp [message, hstate, hfind, ha]
    · simp [message, hstate, hfind, ha, h]

/-- Witness for C7: after player 1 was judged wrong, their repeated buzz on
the reopened question is a perfect no-op. -/
theorem no_double_buzz_witness :
    message fixCanAnswerAfterNo 2 ("1") = (fixCanAnswerAfterNo, []) :=
  no_double_buzz fixCanAnswerAfterNo sampleQ 100 2 fixP1 ("1")
    (by decide) (by decide) (Or.inl (by decide))

end Svoyak

namespace Svoyak

open GameState

theorem setContains_eq_false_iff (l : List Player) (p : Player) :
    setContains l p = false ↔ p.id ∉ l.map Player.id := by
  simp [setContains, List.any_eq_true]

theorem run_all_wrong_go (order : List Player) :
    ∀ (s : GameState) (q : Question) (cost : Int) (c : Player),
    s.state = State.CanAnswer q cost →
    s.player_which_chose_question = some c →
    s.players_falsestarted = [] →
    (s.players.map (fun pk => pk.1.id)).Nodup →
    (s.players_answered_current_question.map Player.id ++
      order.map Player.id).Perm (s.players.map (fun pk => pk.1.id)) →
    order ≠ [] →
    ∃ s2, run_all_wrong s order = some s2 ∧
      s2.state = State.Pause ∧ s2.current_player = some c := by
  induction order with
  | nil => intro s q cost c _ _ _ _ _ hne; exact absurd rfl hne
  | cons p rest ih =>
    intro s q cost c hstate hch hfs hnd hperm _
    have hpid : p.id ∈ s.players.map (fun pk => pk.1.id) := by
      refine hperm.mem_iff.mp ?_
      simp
    rcases find_by_id_of_mem s.players p.id hpid with ⟨pk, hfindpk, hpkid⟩
    have hfind : find_player s p.id = some pk.1 := by
      simp [find_player, hfindpk]
    have hndL : (s.players_answered_current_question.map Player.id ++
        (p :: rest).map Player.id).Nodup := hperm.symm.nodup hnd
    have hnotans : p.id ∉ s.players_answered_current_question.map Player.id := by
      intro hmem
      exact (List.nodup_append.mp hndL).2.2 hmem (by simp)
    have hna : setContains s.players_answered_current_question pk.1 = false := by
      rw [setContains_eq_false_iff, hpkid]
      exact hnotans
    have hnf : setContains s.players_falsestarted pk.1 = false := by
      rw [hfs]; rfl
    have hmsg := message_canAnswer_eq s q cost p.id pk.1 ("1") hstate hfind hna hnf
    obtain ⟨ps, hup, hmapfst⟩ := updateScore_some s.players pk.1.id (-cost)
      (by rw [hpkid]; exact hpid)
    have hids : ps.map (fun pk => pk.1.id) = s.players.map (fun pk => pk.1.id) := by
      have h := congrArg (List.map Player.id) hmapfst
      simpa [List.map_map, Function.comp] using h
    have hlens : s.players_answered_current_question.length + (rest.length + 1) =
        ps.length := by
      have h1 := hperm.length_eq
      have h2 := congrArg List.length hids
      simp at h1 h2
      omega
    cases rest with
    | nil =>
      have hlen : (s.players_answered_current_question ++ [pk.1]).length =
          ps.length := by
        simp at hlens ⊢
        omega
      have hclose := no_reply_close_all_eq
        { s with current_player := some pk.1,
                 players_answered_current_question :=
                   s.players_answered_current_question ++ [pk.1],
                 state := State.Answering q cost true }
        q cost pk.1 c ps s.admin_user rfl rfl rfl hup hlen hch
      have hbuzz : buzz_then_no s p = some
          { s with current_player := some c,
                   players_answered_current_question :=
                     s.players_answered_current_question ++ [pk.1],
                   state := State.Pause,
                   players := ps } := by
        unfold buzz_then_no
        rw [hmsg]
        simpa using hclose
      refine ⟨{ s with current_player := some c,
                       players_answered_current_question :=
                         s.players_answered_current_question ++ [pk.1],
                       state := State.Pause,
                       players := ps }, ?_, rfl, rfl⟩
      simp [run_all_wrong, hbuzz]
    | cons r rs =>
      have hlen : (s.players_answered_current_question ++ [pk.1]).length ≠
          ps.length := by
        simp at hlens ⊢
        omega
      have hcont := no_reply_continue_eq
        { s with current_player := some pk.1,
                 players_answered_current_question :=
                   s.players_answered_current_question ++ [pk.1],
                 state := State.Answering q cost true }
        q cost pk.1 ps s.admin_user rfl rfl rfl hup hlen
      have hbuzz : buzz_then_no s p = some
          { s with current_player := some pk.1,
                   players_answered_current_question :=
                     s.players_answered_current_question ++ [pk.1],
                   state := State.CanAnswer q cost,
                   players := ps,
                   players_falsestarted := [] } := by
        unfold buzz_then_no
        rw [hmsg]
        simp only [hcont]
        simp
      have hnd2 : (ps.map (fun pk => pk.1.id)).Nodup := by
        rw [hids]; exact hnd
      have hperm2 : ((s.players_answered_current_question ++ [pk.1]).map Player.id ++
          (r :: rs).map Player.id).Perm (ps.map (fun pk => pk.1.id)) := by
        rw [hids]
        have heq : (s.players_answered_current_question ++ [pk.1]).map Player.id ++
            (r :: rs).map Player.id =
            s.players_answered_current_question.map Player.id ++
              (p :: r :: rs).map Player.id := by
          simp [hpkid]
        rw [heq]
        exact hperm
      obtain ⟨s2, hrun, hst, hcp2⟩ := ih
        { s with current_player := some pk.1,
                 players_answered_current_question :=
                   s.players_answered_current_question ++ [pk.1],
                 state := State.CanAnswer q cost,
                 players := ps,
                 players_falsestarted := [] }
        q cost c rfl hch rfl hnd2 hperm2 (by simp)
      refine ⟨s2, ?_, hst, hcp2⟩
      simp only [run_all_wrong, hbuzz]
      exact hrun

/-- C1: normal multi-answerer flow in which every registered player buzzes
and is judged wrong (`no_reply`) in an arbitrary order: when the question
closes, the session is back in `Pause` and `current_player` is the recorded
chooser (the player who selected the question), regardless of buzz order. -/
theorem turn_return_on_failure (s : GameState) (q : Question) (cost : Int)
    (c : Player) (order : List Player)
    (hstate : s.state = State.CanAnswer q cost)
    (hans : s.players_answered_current_question = [])
    (hfs : s.players_falsestarted = [])
    (hch : s.player_which_chose_question = some c)
    (hnd : (s.players.map (fun pk => pk.1.id)).Nodup)
    (hperm : order.Perm (s.players.map Prod.fst))
    (hne : order ≠ []) :
    ∃ s2, run_all_wrong s order = some s2 ∧
      s2.state = State.Pause ∧ s2.current_player = some c := by
  apply run_all_wrong_go order s q cost c hstate hch hfs hnd ?_ hne
  rw [hans]
  simpa [List.map_map, Function.comp] using hperm.map Player.id

/-- Witness for C1 at the fixture state, with the two players buzzing in
the order player 2 then player 1 — the turn still returns to player 1, the
chooser. -/
theorem turn_return_on_failure_witness :
    ∃ s2, run_all_wrong fixCanAnswer [fixP2, fixP1] = some s2 ∧
      s2.state = State.Pause ∧ s2.current_player = some fixP1 :=
  turn_return_on_failure fixCanAnswer sampleQ 100 fixP1 [fixP2, fixP1]
    (by decide) (by decide) (by decide) (by decide) (by decide) (by decide)
    (by decide)

end Svoyak

namespace Svoyak

open GameState

/-- Counterexample for C5: `fixCanAnswer` is in state `CanAnswer` — not the
`Pause` post-resolution state — yet an admin `next_question` is not a
silent no-op: it mutates the state to `WaitingForTopic` and emits intents.
This refutes "in every other state it is a silent no-op". -/
theorem next_question_not_pause_cex :
    fixCanAnswer.state = State.CanAnswer sampleQ 100 ∧
    State.CanAnswer sampleQ 100 ≠ State.Pause ∧
    (fixCanAnswer.next_question 1).1.state = State.WaitingForTopic ∧
    fixCanAnswer.next_question 1 ≠ (fixCanAnswer, []) := by
  decide

/-- C5 as amended: `next_question` never checks the session state.  It is a
silent no-op exactly when the caller is not the admin or no `current_player`
is set; otherwise — from any state whatsoever — it moves the session to
`WaitingForTopic`, emits a scoreboard snapshot, and offers `current_player`
exactly the topics with non-empty cost availability. -/
theorem next_question_spec :
    (∀ (s : GameState) (user : Int),
      user ≠ s.admin_user → next_question s user = (s, [])) ∧
    (∀ s : GameState,
      s.current_player = none → next_question s s.admin_user = (s, [])) ∧
    (∀ (s : GameState) (p : Player),
      s.current_player = some p →
      next_question s s.admin_user =
        ({ s with state := State.WaitingForTopic },
         [UiRequest.SendScoreTable (make_score_table s),
          UiRequest.ChooseTopic p.name
            ((s.questions.filter (fun tc => !tc.2.isEmpty)).map Prod.fst)])) := by
  refine ⟨?_, ?_, ?_⟩
  · intro s user h
    simp [next_question, h]
  · intro s h
    simp [next_question, h]
  · intro s p h
    simp [next_question, h, setState, make_score_table]

/-- Witness for C5: the three cases of the amended claim at concrete
sessions — a non-admin call, the pre-game session without a current player,
and the admin call from the (non-`Pause`) state `CanAnswer`. -/
theorem next_question_spec_witness :
    next_question fixBase 7 = (fixBase, []) ∧
    next_question fixNew fixNew.admin_user = (fixNew, []) ∧
    next_question fixCanAnswer fixCanAnswer.admin_user =
      ({ fixCanAnswer with state := State.WaitingForTopic },
       [UiRequest.SendScoreTable (make_score_table fixCanAnswer),
        UiRequest.ChooseTopic fixP1.name
          ((fixCanAnswer.questions.filter (fun tc => !tc.2.isEmpty)).map Prod.fst)]) :=
  ⟨next_question_spec.1 fixBase 7 (by decide),
   next_question_spec.2.1 fixNew (by decide),
   next_question_spec.2.2 fixCanAnswer fixP1 (by decide)⟩

/-- Counterexample for C6: `fixBase` is past the pre-game waiting state
(`Pause`), and a join attempt is rejected with an empty intent list — there
is no rejection notice, refuting "observable as a rejection notice" for the
not-in-pre-game case. -/
theorem join_after_start_silent_cex :
    fixBase.state = State.Pause ∧
    add_player fixBase 9 ("late") = (fixBase, []) := by
  decide

/-- C6 as amended: a join while the session is past the pre-game waiting
state is rejected silently (no intents at all); a join whose identity is
already registered, or whose name collides case-sensitively with an
existing player, is rejected with a notice; in every rejection the session
(hence the roster) is unchanged; otherwise the player is appended to the
roster with score 0. -/
theorem join_spec :
    (∀ (s : GameState) (id : Int) (name : String),
      s.state ≠ State.WaitingForPlayersToJoin → add_player s id name = (s, [])) ∧
    (∀ (s : GameState) (id : Int) (name : String) (p : Player),
      s.state = State.WaitingForPlayersToJoin →
      find_player s id = some p →
      add_player s id name =
        (s, [UiRequest.SendTextToMainChat ("Такой игрок уже существует")])) ∧
    (∀ (s : GameState) (id : Int) (name : String) (p : Player),
      s.state = State.WaitingForPlayersToJoin →
      find_player s id = none →
      find_player_by_name s name = some p →
      add_player s id name =
        (s, [UiRequest.SendTextToMainChat ("Игрок с таким именем уже существует")])) ∧
    (∀ (s : GameState) (id : Int) (name : String),
      s.state = State.WaitingForPlayersToJoin →
      find_player s id = none →
      find_player_by_name s name = none →
      add_player s id name =
        ({ s with players := s.players ++ [(⟨name, id⟩, 0)] },
         [UiRequest.SendTextToMainChat ("Привет " ++ name)]) ∧
      get_player_score { s with players := s.players ++ [(⟨name, id⟩, 0)] } id =
        some 0) := by
  refine ⟨?_, ?_, ?_, ?_⟩
  · intro s id name h
    simp [add_player, h]
  · intro s id name p h hid
    simp [add_player, h, hid]
  · intro s id name p h hid hname
    simp [add_player, h, hid, hname]
  · intro s id name h hid hname
    have hfresh : s.players.find? (fun pk => pk.1.id == id) = none := by
      by_contra hne
      rcases Option.ne_none_iff_exists'.mp hne with ⟨pk, hpk⟩
      simp [find_player, hpk] at hid
    constructor
    · simp [add_player, h, hid, hname]
      exact playersInsert_fresh s.players ⟨name, id⟩ 0 hfresh
    · rw [get_player_score, List.find?_append, hfresh]
      simp [List.find?]

/-- Witness for C6: the four join cases at concrete sessions — a late join
(silent), a duplicate identity, a duplicate name, and a successful join of
a fresh player with score 0. -/
theorem join_spec_witness :
    add_player fixBase 9 ("x") = (fixBase, []) ∧
    add_player fixNew2 2 ("other") =
      (fixNew2, [UiRequest.SendTextToMainChat ("Такой игрок уже существует")]) ∧
    add_player fixNew2 9 ("new_1") =
      (fixNew2, [UiRequest.SendTextToMainChat ("Игрок с таким именем уже существует")]) ∧
    (add_player fixNew2 9 ("fresh") =
      ({ fixNew2 with players := fixNew2.players ++ [(⟨"fresh", 9⟩, 0)] },
       [UiRequest.SendTextToMainChat ("Привет fresh")]) ∧
     get_player_score { fixNew2 with players := fixNew2.players ++ [(⟨"fresh", 9⟩, 0)] } 9 =
       some 0) :=
  ⟨join_spec.1 fixBase 9 ("x") (by decide),
   join_spec.2.1 fixNew2 2 ("other") fixP1 (by decide) (by decide),
   join_spec.2.2.1 fixNew2 9 ("new_1") fixP1 (by decide) (by decide) (by decide),
   join_spec.2.2.2 fixNew2 9 ("fresh") (by decide) (by decide) (by decide)⟩

end Svoyak

namespace Svoyak

open GameState

/-- Counterexample for C8: `qCyr` has no image and its question text is 60
characters — at most 100 characters, so the claim says the bucket is
`Short` — yet the scheduled delay is `Medium`, because the source measures
`question.question().len()`, the UTF-8 byte count (here 120). -/
theorem delay_bucket_chars_cex :
    qCyr.image = none ∧
    qCyr.question.length = 60 ∧
    utf8Len qCyr.question = 120 ∧
    (timeout fixBeforeCyr).map Prod.snd =
      some [UiRequest.SendTextToMainChat qCyr.question,
            UiRequest.Timeout (some ("!")) Delay.Medium] ∧
    Delay.Medium ≠ Delay.Short := by
  decide

/-- C8 as amended: on the timeout that moves `BeforeQuestionAsked` to
`Falsestart`, the question is broadcast and the scheduled delay bucket is a
function of the question content — long when an image is attached,
otherwise short for question text of at most 100 UTF-8 *bytes* (Rust
`String::len`, not characters), medium for at most 230 bytes, long
otherwise — and the timeout intent carries the visible `!` marker for the
buzz-window opening. -/
theorem delay_bucket_spec (s : GameState) (q : Question) (cost : Int)
    (hstate : s.state = State.BeforeQuestionAsked q cost) :
    timeout s = some ({ s with state := State.Falsestart q cost },
      format_question q ++ [UiRequest.Timeout (some ("!")) (delayBucket q)]) := by
  simp only [timeout, hstate, setState, delayBucket]

/-- Witness for C8 at the fixture state: the ASCII question of 9 bytes gets
the short bucket, and the `!` marker is scheduled. -/
theorem delay_bucket_spec_witness :
    timeout fixBefore = some ({ fixBefore with state := State.Falsestart sampleQ 100 },
      format_question sampleQ ++ [UiRequest.Timeout (some ("!")) (delayBucket sampleQ)]) :=
  delay_bucket_spec fixBefore sampleQ 100 (by decide)

/-- Counterexample for C3: in `fixWaitQuestion` the board offers
`(Sport, 100)`; selecting it with a question source that returns nothing
aborts the action, but the Question Board is *not* exactly as before — the
cost 100 has already been removed and stays removed, refuting "the Question
Board (including the availability of that cost) are all exactly as
before". -/
theorem select_question_lookup_board_cex :
    costAvailable fixWaitQuestion ("Sport") 100 = true ∧
    (select_question fixWaitQuestion ("Sport") 100 2 qstoreNone).2 = [] ∧
    costAvailable (select_question fixWaitQuestion ("Sport") 100 2 qstoreNone).1
      ("Sport") 100 = false ∧
    (select_question fixWaitQuestion ("Sport") 100 2 qstoreNone).1.questions ≠
      fixWaitQuestion.questions := by
  decide

end Svoyak

namespace Svoyak

open GameState

theorem boardHas_iff (qs : List (String × List Nat)) (topic : String)
    (cost : Nat) :
    boardHas qs topic cost = true ↔ ∃ e ∈ qs, e.1 = topic ∧ cost ∈ e.2 := by
  simp [boardHas, List.any_eq_true]

theorem takeCost_nomatch (qs : List (String × List Nat)) (topic : String)
    (cost : Nat) (h : ∀ e ∈ qs, e.1 ≠ topic) :
    takeCost qs topic cost = (qs, false, false) := by
  induction qs with
  | nil => rfl
  | cons hd tl ih =>
    obtain ⟨t, costs⟩ := hd
    have hhd : t ≠ topic := h (t, costs) (by simp)
    have htl := ih (fun e he => h e (by simp [he]))
    simp [takeCost, hhd, htl]

theorem takeCost_found (qs : List (String × List Nat)) (topic : String)
    (cost : Nat) (hnames : (qs.map Prod.fst).Nodup)
    (hav : boardHas qs topic cost = true) :
    (takeCost qs topic cost).2.1 = true ∧
    (takeCost qs topic cost).2.2 = false ∧
    boardHas (takeCost qs topic cost).1 topic cost = false := by
  induction qs with
  | nil => simp [boardHas] at hav
  | cons hd tl ih =>
    obtain ⟨t, costs⟩ := hd
    rw [show (((t, costs) :: tl).map Prod.fst) = t :: tl.map Prod.fst from rfl,
        List.nodup_cons] at hnames
    by_cases ht : t = topic
    · subst ht
      have hnot : ∀ e ∈ tl, e.1 ≠ t := fun e he heq =>
        hnames.1 (heq ▸ List.mem_map_of_mem Prod.fst he)
      have htl : boardHas tl t cost = false := by
        rw [Bool.eq_false_iff]
        intro habs
        rcases (boardHas_iff tl t cost).mp habs with ⟨e, he, heq, _⟩
        exact hnot e he heq
      have hcm : cost ∈ costs := by
        rcases (boardHas_iff _ _ _).mp hav with ⟨e, he, heq, hc⟩
        rcases List.mem_cons.mp he with rfl | he2
        · exact hc
        · exact absurd heq (hnot e he2)
      have hrest := takeCost_nomatch tl t cost hnot
      refine ⟨by simp [takeCost, hcm], by simp [takeCost, hcm, hrest], ?_⟩
      have hres : (takeCost ((t, costs) :: tl) t cost).1 =
          (t, costs.filter (fun e => e ≠ cost)) :: tl := by
        simp [takeCost, hcm, hrest]
      rw [hres, Bool.eq_false_iff]
      intro habs
      rcases (boardHas_iff _ _ _).mp habs with ⟨e, he, heq, hc⟩
      rcases List.mem_cons.mp he with rfl | he2
      · have := (List.mem_filter.mp hc).2
        simp at this
      · exact hnot e he2 heq
    · have htl : boardHas tl topic cost = true := by
        rcases (boardHas_iff _ _ _).mp hav with ⟨e, he, heq, hc⟩
        rcases List.mem_cons.mp he with rfl | he2
        · exact absurd heq ht
        · exact (boardHas_iff _ _ _).mpr ⟨e, he2, heq, hc⟩
      obtain ⟨h1, h2, h3⟩ := ih hnames.2 htl
      refine ⟨by simp [takeCost, ht, h1], by simp [takeCost, ht, h2], ?_⟩
      have hres : (takeCost ((t, costs) :: tl) topic cost).1 =
          (t, costs) :: (takeCost tl topic cost).1 := by
        simp [takeCost, ht]
      rw [hres, Bool.eq_false_iff]
      intro habs
      rcases (boardHas_iff _ _ _).mp habs with ⟨e, he, heq, hc⟩
      rcases List.mem_cons.mp he with rfl | he2
      · exact ht heq
      · rw [Bool.eq_false_iff] at h3
        exact h3 ((boardHas_iff _ _ _).mpr ⟨e, he2, heq, hc⟩)

theorem takeCost_unavailable (qs : List (String × List Nat)) (topic : String)
    (cost : Nat) (h : boardHas qs topic cost = false) :
    (takeCost qs topic cost).1 = qs ∧
    ((takeCost qs topic cost).2.2 = true ∨
      (takeCost qs topic cost).2.1 = false) := by
  induction qs with
  | nil => simp [takeCost]
  | cons hd tl ih =>
    obtain ⟨t, costs⟩ := hd
    have hh : ¬ ∃ e ∈ (t, costs) :: tl, e.1 = topic ∧ cost ∈ e.2 := by
      rw [← boardHas_iff]
      simp [h]
    have htl : boardHas tl topic cost = false := by
      rw [Bool.eq_false_iff]
      intro habs
      rcases (boardHas_iff _ _ _).mp habs with ⟨e, he, h1, h2⟩
      exact hh ⟨e, by simp [he], h1, h2⟩
    by_cases ht : t = topic
    · have hcm : cost ∉ costs := fun hc => hh ⟨(t, costs), by simp, ht, hc⟩
      simp [takeCost, ht, hcm]
    · obtain ⟨ih1, ih2⟩ := ih htl
      rcases ih2 with ih2 | ih2
      · simp [takeCost, ht, ih1, ih2]
      · simp [takeCost, ht, ih1, ih2]

theorem takeCost_entry_sub (qs : List (String × List Nat)) (t0 : String)
    (c0 : Nat) :
    ∀ e ∈ (takeCost qs t0 c0).1, ∃ e2 ∈ qs, e.1 = e2.1 ∧ ∀ x ∈ e.2, x ∈ e2.2 := by
  induction qs with
  | nil => simp [takeCost]
  | cons hd tl ih =>
    obtain ⟨t, costs⟩ := hd
    by_cases ht : t = t0
    · by_cases hcm : c0 ∈ costs
      · have hres : (takeCost ((t, costs) :: tl) t0 c0).1 =
            (t, costs.filter (fun e => e ≠ c0)) :: (takeCost tl t0 c0).1 := by
          simp [takeCost, ht, hcm]
        rw [hres]
        intro e he
        rcases List.mem_cons.mp he with rfl | he2
        · exact ⟨(t, costs), by simp, rfl, fun x hx => (List.mem_filter.mp hx).1⟩
        · rcases ih e he2 with ⟨e2, he2m, h1, h2⟩
          exact ⟨e2, by simp [he2m], h1, h2⟩
      · have hres : (takeCost ((t, costs) :: tl) t0 c0).1 = (t, costs) :: tl := by
          simp [takeCost, ht, hcm]
        rw [hres]
        intro e he
        exact ⟨e, he, rfl, fun x hx => hx⟩
    · have hres : (takeCost ((t, costs) :: tl) t0 c0).1 =
          (t, costs) :: (takeCost tl t0 c0).1 := by
        simp [takeCost, ht]
      rw [hres]
      intro e he
      rcases List.mem_cons.mp he with rfl | he2
      · exact ⟨(t, costs), by simp, rfl, fun x hx => hx⟩
      · rcases ih e he2 with ⟨e2, he2m, h1, h2⟩
        exact ⟨e2, by simp [he2m], h1, h2⟩

theorem hideCost_entry_sub (qs : List (String × List Nat)) (t0 : String)
    (c0 : Nat) :
    ∀ e ∈ (hideCost qs t0 c0).1, ∃ e2 ∈ qs, e.1 = e2.1 ∧ ∀ x ∈ e.2, x ∈ e2.2 := by
  induction qs with
  | nil => simp [hideCost]
  | cons hd tl ih =>
    obtain ⟨t, costs⟩ := hd
    by_cases ht : t = t0
    · by_cases hcm : c0 ∈ costs
      · have hres : (hideCost ((t, costs) :: tl) t0 c0).1 =
            (t, costs.filter (fun e => e ≠ c0)) :: (hideCost tl t0 c0).1 := by
          simp [hideCost, ht, hcm]
        rw [hres]
        intro e he
        rcases List.mem_cons.mp he with rfl | he2
        · exact ⟨(t, costs), by simp, rfl, fun x hx => (List.mem_filter.mp hx).1⟩
        · rcases ih e he2 with ⟨e2, he2m, h1, h2⟩
          exact ⟨e2, by simp [he2m], h1, h2⟩
      · have hres : (hideCost ((t, costs) :: tl) t0 c0).1 = (t, costs) :: tl := by
          simp [hideCost, ht, hcm]
        rw [hres]
        intro e he
        exact ⟨e, he, rfl, fun x hx => hx⟩
    · have hres : (hideCost ((t, costs) :: tl) t0 c0).1 =
          (t, costs) :: (hideCost tl t0 c0).1 := by
        simp [hideCost, ht]
      rw [hres]
      intro e he
      rcases List.mem_cons.mp he with rfl | he2
      · exact ⟨(t, costs), by simp, rfl, fun x hx => hx⟩
      · rcases ih e he2 with ⟨e2, he2m, h1, h2⟩
        exact ⟨e2, by simp [he2m], h1, h2⟩

theorem boardHas_takeCost_le (qs : List (String × List Nat)) (t0 : String)
    (c0 : Nat) (topic : String) (cost : Nat)
    (h : boardHas (takeCost qs t0 c0).1 topic cost = true) :
    boardHas qs topic cost = true := by
  rcases (boardHas_iff _ _ _).mp h with ⟨e, he, heq, hc⟩
  rcases takeCost_entry_sub qs t0 c0 e he with ⟨e2, he2, h1, h2⟩
  exact (boardHas_iff _ _ _).mpr ⟨e2, he2, h1 ▸ heq, h2 cost hc⟩

theorem boardHas_hideCost_le (qs : List (String × List Nat)) (t0 : String)
    (c0 : Nat) (topic : String) (cost : Nat)
    (h : boardHas (hideCost qs t0 c0).1 topic cost = true) :
    boardHas qs topic cost = true := by
  rcases (boardHas_iff _ _ _).mp h with ⟨e, he, heq, hc⟩
  rcases hideCost_entry_sub qs t0 c0 e he with ⟨e2, he2, h1, h2⟩
  exact (boardHas_iff _ _ _).mpr ⟨e2, he2, h1 ▸ heq, h2 cost hc⟩

end Svoyak

namespace Svoyak

open GameState

theorem state_update_self (s : GameState) (st : State) (h : s.state = st) :
    ({ s with state := st } : GameState) = s := by
  rw [← h]

theorem select_question_unavailable (s : GameState) (topic : String)
    (cost : Nat) (user : Int) (qstore : String → Nat → Option Question)
    (h : costAvailable s topic cost = false) :
    select_question s topic cost user qstore = (s, []) := by
  by_cases hstate : s.state = State.WaitingForQuestion
  case neg => simp [select_question, hstate]
  by_cases hcur : is_current_player s user
  case neg => simp [select_question, hstate, hcur]
  obtain ⟨h1, h2⟩ := takeCost_unavailable s.questions topic cost h
  have hself := state_update_self s State.WaitingForQuestion hstate
  cases habort : (takeCost s.questions topic cost).2.2 with
  | true => simp [select_question, hstate, hcur, habort, h1, hself]
  | false =>
    have hfound : (takeCost s.questions topic cost).2.1 = false := by
      rcases h2 with h2 | h2
      · rw [habort] at h2
        cases h2
      · exact h2
    simp [select_question, hstate, hcur, habort, hfound, h1, hself]

/-- C3 as amended: when the board accepted a `(topic, cost)` selection but
the question source then yields nothing, the action aborts with no emitted
intents; the session's state, scores, `current_player` and chooser are
exactly as before the call and the session remains usable — but the
selected cost has already been irrevocably removed from the Question Board
(the cell is taken even though the question was never played). -/
theorem select_question_lookup_failure (s : GameState) (topic : String)
    (cost : Nat) (user : Int) (qstore : String → Nat → Option Question)
    (hnames : (s.questions.map Prod.fst).Nodup)
    (hstate : s.state = State.WaitingForQuestion)
    (hcur : is_current_player s user = true)
    (hav : costAvailable s topic cost = true)
    (hcib : is_cat_in_bag s topic cost = none)
    (hget : qstore topic (cost / s.current_multiplier) = none) :
    (select_question s topic cost user qstore).2 = [] ∧
    (select_question s topic cost user qstore).1.state = s.state ∧
    (select_question s topic cost user qstore).1.players = s.players ∧
    (select_question s topic cost user qstore).1.current_player =
      s.current_player ∧
    (select_question s topic cost user qstore).1.player_which_chose_question =
      s.player_which_chose_question ∧
    costAvailable (select_question s topic cost user qstore).1 topic cost =
      false := by
  obtain ⟨hfound, habort, hafter⟩ :=
    takeCost_found s.questions topic cost hnames hav
  have hres : select_question s topic cost user qstore =
      ({ s with questions := (takeCost s.questions topic cost).1 }, []) := by
    have hcib2 : is_cat_in_bag
        { s with state := State.WaitingForQuestion,
                 questions := (takeCost s.questions topic cost).1 } topic cost =
        none := hcib
    have hget2 : qstore topic (cost /
        ({ s with state := State.WaitingForQuestion,
                  questions := (takeCost s.questions topic cost).1 } :
          GameState).current_multiplier) = none := hget
    simp [select_question, hstate, hcur, habort, hfound, hcib, hcib2, hget, hget2]
  rw [hres]
  exact ⟨rfl, by simp [hstate], rfl, rfl, rfl, by simpa [costAvailable] using hafter⟩

/-- Witness for C3's amended claim at the fixture: selecting `(Sport, 100)`
with an empty question source. -/
theorem select_question_lookup_failure_witness :
    (select_question fixWaitQuestion ("Sport") 100 2 qstoreNone).2 = [] ∧
    (select_question fixWaitQuestion ("Sport") 100 2 qstoreNone).1.state =
      fixWaitQuestion.state ∧
    (select_question fixWaitQuestion ("Sport") 100 2 qstoreNone).1.players =
      fixWaitQuestion.players ∧
    (select_question fixWaitQuestion ("Sport") 100 2 qstoreNone).1.current_player =
      fixWaitQuestion.current_player ∧
    (select_question fixWaitQuestion ("Sport") 100 2
        qstoreNone).1.player_which_chose_question =
      fixWaitQuestion.player_which_chose_question ∧
    costAvailable (select_question fixWaitQuestion ("Sport") 100 2 qstoreNone).1
      ("Sport") 100 = false :=
  select_question_lookup_failure fixWaitQuestion ("Sport") 100 2 qstoreNone
    (by decide) (by decide) (by decide) (by decide) (by decide) rfl

end Svoyak

namespace Svoyak

open GameState

theorem add_player_questions (s : GameState) (u : Int) (n : String) :
    (add_player s u n).1.questions = s.questions := by
  unfold add_player
  repeat' split
  all_goals simp

theorem next_question_questions (s : GameState) (u : Int) :
    (next_question s u).1.questions = s.questions := by
  unfold next_question
  repeat' split
  all_goals simp [setState]

theorem select_topic_questions (s : GameState) (t : String) (u : Int) :
    (select_topic s t u).1.questions = s.questions := by
  unfold select_topic
  repeat' split
  all_goals simp [setState]

theorem message_questions (s : GameState) (u : Int) (m : String) :
    (message s u m).1.questions = s.questions := by
  unfold message
  repeat' split
  all_goals simp [setState]

theorem update_auction_cost_questions (s : GameState) (u : Int) (n : String)
    (c : Nat) : (update_auction_cost s u n c).1.questions = s.questions := by
  unfold update_auction_cost
  repeat' split
  all_goals simp [setState]

theorem select_cat_in_bag_player_questions (s : GameState) (u : Int)
    (n : String) : (select_cat_in_bag_player s u n).1.questions = s.questions := by
  unfold select_cat_in_bag_player
  repeat' split
  all_goals simp [setState]

theorem select_cat_in_bag_cost_questions (s : GameState) (u : Int) (c : Nat) :
    (select_cat_in_bag_cost s u c).1.questions = s.questions := by
  unfold select_cat_in_bag_cost
  repeat' split
  all_goals simp [setState]

theorem update_score_questions (s : GameState) (n : String) (v : Int)
    (u : Int) : (update_score s n v u).1.questions = s.questions := by
  unfold update_score
  repeat' split
  all_goals simp

theorem change_player_questions (s : GameState) (u : Int) (n : String) :
    (change_player s u n).1.questions = s.questions := by
  unfold change_player
  repeat' split
  all_goals simp

theorem get_score_questions (s : GameState) (u : Int) :
    (get_score s u).1.questions = s.questions := rfl

theorem current_player_query_questions (s : GameState) (u : Int) :
    (current_player_query s u).1.questions = s.questions := by
  unfold current_player_query
  repeat' split
  all_goals simp

theorem close_unanswered_questions_pres (s : GameState) (q : Question)
    (r : Option String) (s2 : GameState) (out : List UiRequest)
    (h : close_unanswered_question s q r = some (s2, out)) :
    s2.questions = s.questions := by
  unfold close_unanswered_question setState at h
  cases hpc : s.player_which_chose_question <;> rw [hpc] at h
  · simp at h
  · cases r <;> simp at h <;> obtain ⟨h1, h2⟩ := h <;> rw [← h1]

theorem close_answered_questions_pres (s : GameState) (r : Option String)
    (s2 : GameState) (out : List UiRequest)
    (h : close_answered_question s r = some (s2, out)) :
    s2.questions = s.questions := by
  unfold close_answered_question setState at h
  cases hpc : s.current_player <;> rw [hpc] at h
  · simp at h
  · cases r <;> simp at h <;> obtain ⟨h1, h2⟩ := h <;> rw [← h1]

theorem update_current_player_score_questions (s : GameState) (d : Int)
    (s2 : GameState) (h : update_current_player_score s d = Except.ok s2) :
    s2.questions = s.questions := by
  unfold update_current_player_score at h
  repeat' split at h
  all_goals simp at h
  all_goals rw [← h]

theorem yes_reply_questions (s : GameState) (u : Int) (s2 : GameState)
    (out : List UiRequest) (h : yes_reply s u = some (s2, out)) :
    s2.questions = s.questions := by
  unfold yes_reply at h
  repeat' split at h
  all_goals try (simp at h; obtain ⟨h1, h2⟩ := h; rw [← h1])
  all_goals
    rename_i s3 heq2
  all_goals
    have hq1 := update_current_player_score_questions _ _ _ heq2
  all_goals
    have hq2 := close_answered_questions_pres _ _ _ _ h
  all_goals rw [hq2]; exact hq1

theorem no_reply_questions (s : GameState) (u : Int) (s2 : GameState)
    (out : List UiRequest) (h : no_reply s u = some (s2, out)) :
    s2.questions = s.questions := by
  unfold no_reply at h
  split at h
  · simp at h
    obtain ⟨h1, h2⟩ := h
    rw [← h1]
  · split at h
    · split at h
      · rename_i s3 heq2
        have hq1 := update_current_player_score_questions _ _ _ heq2
        split at h
        · split at h
          · simp at h
            obtain ⟨h1, h2⟩ := h
            rw [← h1]
            exact hq1
          · have hq2 := close_unanswered_questions_pres _ _ _ _ _ h
            rw [hq2]
            exact hq1
        · have hq2 := close_unanswered_questions_pres _ _ _ _ _ h
          rw [hq2]
          exact hq1
      · simp at h
        obtain ⟨h1, h2⟩ := h
        rw [← h1]
    · simp at h
      obtain ⟨h1, h2⟩ := h
      rw [← h1]

theorem timeout_questions (s : GameState) (s2 : GameState)
    (out : List UiRequest) (h : timeout s = some (s2, out)) :
    s2.questions = s.questions := by
  unfold timeout at h
  split at h
  · simp [setState] at h
    obtain ⟨h1, h2⟩ := h
    rw [← h1]
  · simp [setState] at h
    obtain ⟨h1, h2⟩ := h
    rw [← h1]
  · exact close_unanswered_questions_pres _ _ _ _ _ h
  · simp at h
    obtain ⟨h1, h2⟩ := h
    rw [← h1]

end Svoyak

namespace Svoyak

open GameState

theorem select_question_questions_cases (s : GameState) (t : String)
    (c : Nat) (u : Int) (qstore : String → Nat → Option Question)
    (s2 : GameState) (out : List UiRequest)
    (h : select_question s t c u qstore = (s2, out)) :
    s2.questions = s.questions ∨
    s2.questions = (takeCost s.questions t c).1 := by
  by_cases hst : s.state = State.WaitingForQuestion
  case neg =>
    simp [select_question, hst] at h
    obtain ⟨h1, h2⟩ := h
    left
    rw [← h1]
  by_cases hcur : is_current_player s u = true
  case neg =>
    simp [select_question, hst, hcur] at h
    obtain ⟨h1, h2⟩ := h
    left
    rw [← h1]
  cases habort : (takeCost s.questions t c).2.2 with
  | true =>
    simp [select_question, hst, hcur, habort] at h
    obtain ⟨h1, h2⟩ := h
    right
    rw [← h1]
  | false =>
    cases hfound : (takeCost s.questions t c).2.1 with
    | false =>
      simp [select_question, hst, hcur, habort, hfound] at h
      obtain ⟨h1, h2⟩ := h
      right
      rw [← h1]
    | true =>
      simp only [select_question, hst, hcur, habort, hfound] at h
      simp at h
      repeat' split at h
      all_goals
        have h1 := congrArg (fun r0 => (r0.1 : GameState).questions) h
      all_goals simp [setState] at h1
      all_goals right
      all_goals exact h1.symm

theorem select_question_costAvailable_le (s : GameState) (t : String)
    (c : Nat) (u : Int) (qstore : String → Nat → Option Question)
    (topic : String) (cost : Nat)
    (h : costAvailable (select_question s t c u qstore).1 topic cost = true) :
    costAvailable s topic cost = true := by
  have hq := select_question_questions_cases s t c u qstore
    (select_question s t c u qstore).1 (select_question s t c u qstore).2 rfl
  rcases hq with hq | hq
  · rw [costAvailable, hq] at h
    exact h
  · rw [costAvailable, hq] at h
    exact boardHas_takeCost_le _ _ _ _ _ h

theorem hide_question_costAvailable_le (s : GameState) (t : String) (c : Nat)
    (u : Int) (topic : String) (cost : Nat)
    (h : costAvailable (hide_question s t c u).1 topic cost = true) :
    costAvailable s topic cost = true := by
  have hq : (hide_question s t c u).1.questions = s.questions ∨
      (hide_question s t c u).1.questions = (hideCost s.questions t c).1 := by
    unfold hide_question
    split
    · left
      rfl
    · right
      rfl
  rcases hq with hq | hq
  · rw [costAvailable, hq] at h
    exact h
  · rw [costAvailable, hq] at h
    exact boardHas_hideCost_le _ _ _ _ _ h

/-- C9: board monotonicity within a tour.  First part: for every action
other than the two board-reloading ones (`start`, `next_tour` — which begin
a fresh tour), a `(topic, cost)` cell that is unavailable (taken) stays
unavailable, so a taken cost never reappears in the lists offered by
`next_question` or `select_topic` (both read the same availability board).
Second part: selecting a cost that is not currently available is a complete
no-op — the session, its board included, is returned unchanged with no
intents. -/
theorem board_monotonic :
    (∀ (s : GameState) (a : Action) (qstore : String → Nat → Option Question)
       (topic : String) (cost : Nat) (s2 : GameState) (out : List UiRequest),
       a.reloads_board = false →
       applyAction s a qstore = some (s2, out) →
       costAvailable s topic cost = false →
       costAvailable s2 topic cost = false) ∧
    (∀ (s : GameState) (topic : String) (cost : Nat) (user : Int)
       (qstore : String → Nat → Option Question),
       costAvailable s topic cost = false →
       select_question s topic cost user qstore = (s, [])) := by
  constructor
  · intro s a qstore topic cost s2 out hrel happ hav
    rw [Bool.eq_false_iff] at hav ⊢
    intro h2
    apply hav
    cases a <;> simp [applyAction] at happ <;>
      [skip; simp [Action.reloads_board] at hrel;
       simp [Action.reloads_board] at hrel; skip; skip; skip; skip; skip;
       skip; skip; skip; skip; skip; skip; skip; skip; skip; skip]
    case add_player u n =>
      have hq := add_player_questions s u n
      rw [happ] at hq
      rwa [costAvailable, ← hq]
    case next_question u =>
      have hq := next_question_questions s u
      rw [happ] at hq
      rwa [costAvailable, ← hq]
    case select_topic t u =>
      have hq := select_topic_questions s t u
      rw [happ] at hq
      rwa [costAvailable, ← hq]
    case select_question t c u =>
      refine select_question_costAvailable_le s t c u qstore topic cost ?_
      rw [happ]
      exact h2
    case message u m =>
      have hq := message_questions s u m
      rw [happ] at hq
      rwa [costAvailable, ← hq]
    case yes_reply u =>
      have hq := yes_reply_questions s u s2 out happ
      rwa [costAvailable, ← hq]
    case no_reply u =>
      have hq := no_reply_questions s u s2 out happ
      rwa [costAvailable, ← hq]
    case timeout =>
      have hq := timeout_questions s s2 out happ
      rwa [costAvailable, ← hq]
    case update_auction_cost u n c =>
      have hq := update_auction_cost_questions s u n c
      rw [happ] at hq
      rwa [costAvailable, ← hq]
    case select_cat_in_bag_player u n =>
      have hq := select_cat_in_bag_player_questions s u n
      rw [happ] at hq
      rwa [costAvailable, ← hq]
    case select_cat_in_bag_cost u c =>
      have hq := select_cat_in_bag_cost_questions s u c
      rw [happ] at hq
      rwa [costAvailable, ← hq]
    case update_score n v u =>
      have hq := update_score_questions s n v u
      rw [happ] at hq
      rwa [costAvailable, ← hq]
    case change_player u n =>
      have hq := change_player_questions s u n
      rw [happ] at hq
      rwa [costAvailable, ← hq]
    case hide_question t c u =>
      refine hide_question_costAvailable_le s t c u topic cost ?_
      rw [happ]
      exact h2
    case get_score u =>
      have hq := get_score_questions s u
      rw [happ] at hq
      rwa [costAvailable, ← hq]
    case current_player_query u =>
      have hq := current_player_query_questions s u
      rw [happ] at hq
      rwa [costAvailable, ← hq]
  · intro s topic cost user qstore h
    exact select_question_unavailable s topic cost user qstore h

end Svoyak

namespace Svoyak

open GameState

/-- Witness for C9: in `fixBefore` the cell `(Sport, 100)` is already taken;
hiding `(Sport, 300)` keeps it unavailable, and selecting the never-offered
cost 777 of Sport is a complete no-op. -/
theorem board_monotonic_witness :
    costAvailable (hide_question fixBefore ("Sport") 300 1).1 ("Sport") 100 =
      false ∧
    select_question fixWaitQuestion ("Sport") 777 2 qstoreS =
      (fixWaitQuestion, []) :=
  ⟨board_monotonic.1 fixBefore (Action.hide_question ("Sport") 300 1) qstoreS
      ("Sport") 100 (hide_question fixBefore ("Sport") 300 1).1
      (hide_question fixBefore ("Sport") 300 1).2 rfl rfl (by decide),
   board_monotonic.2 fixWaitQuestion ("Sport") 777 2 qstoreS (by decide)⟩

/-- C10: in both single-answerer flows the assigned answerer is recorded as
both `current_player` and chooser at assignment time, so an incorrect
answer (`no_reply`) closes the question with `current_player` still the
assigned answerer — the turn does not return to the player who picked the
board cell.  First part: the auction assignment (`update_auction_cost`);
second part: the cat-in-bag assignment (`select_cat_in_bag_player` followed
by `select_cat_in_bag_cost` at the minimum tier). -/
theorem single_answerer_turn :
    (∀ (s : GameState) (q : Question) (name : String) (cost : Nat) (p : Player),
      s.state = State.WaitingForAuction q →
      find_player_by_name s name = some p →
      ∃ s1 out1, update_auction_cost s s.admin_user name cost = (s1, out1) ∧
        s1.current_player = some p ∧
        s1.player_which_chose_question = some p ∧
        s1.state = State.Answering q (Int.ofNat cost) false ∧
        ∃ s2 out2, no_reply s1 s.admin_user = some (s2, out2) ∧
          s2.state = State.Pause ∧ s2.current_player = some p) ∧
    (∀ (s : GameState) (topic : String) (q : Question) (c0 p : Player)
       (sel : String),
      s.state = State.CatInBagChoosingPlayer topic q →
      s.current_player = some c0 →
      (s.players.map Prod.fst).find?
        (fun r => r.id ≠ c0.id && r.name == sel) = some p →
      ∃ s1 out1, select_cat_in_bag_player s c0.id sel = (s1, out1) ∧
        s1.current_player = some p ∧
        s1.player_which_chose_question = some p ∧
        s1.state = State.CatInBagChoosingCost q ∧
        ∃ s2 out2, select_cat_in_bag_cost s1 p.id s.current_multiplier =
            (s2, out2) ∧
          s2.state = State.Answering q (Int.ofNat s.current_multiplier) false ∧
          ∃ s3 out3, no_reply s2 s.admin_user = some (s3, out3) ∧
            s3.state = State.Pause ∧ s3.current_player = some p) := by
  constructor
  · intro s q name cost p hstate hfind
    have heq : update_auction_cost s s.admin_user name cost =
        ({ s with current_player := some p,
                  player_which_chose_question := some p,
                  state := State.Answering q (Int.ofNat cost) false },
         [UiRequest.SendTextToMainChat
            ("Играем аукцион с " ++ name ++ ", стоимость " ++ toString cost)] ++
           format_question q ++
           [UiRequest.AskAdminYesNo ("Correct answer?")]) := by
      simp [update_auction_cost, hstate, hfind, setState]
    refine ⟨_, _, heq, by simp, by simp, by simp, ?_⟩
    have hpid : p.id ∈ s.players.map (fun pk => pk.1.id) := by
      rcases Option.map_eq_some'.mp hfind with ⟨pk, hpk, hval⟩
      have hm := List.mem_of_find?_eq_some hpk
      have h2 : pk.1.id ∈ s.players.map (fun pk => pk.1.id) :=
        List.mem_map_of_mem _ hm
      rwa [hval] at h2
    obtain ⟨ps, hup, hmapfst⟩ :=
      updateScore_some s.players p.id (-(Int.ofNat cost)) hpid
    have hclose := no_reply_close_single_eq
      { s with current_player := some p,
               player_which_chose_question := some p,
               state := State.Answering q (Int.ofNat cost) false }
      q (Int.ofNat cost) p p ps s.admin_user rfl rfl rfl hup rfl
    rcases map_fst_some hclose with ⟨out2, heq2⟩
    exact ⟨_, out2, heq2, by simp, by simp⟩
  · intro s topic q c0 p sel hstate hcp0 hfindp
    have heq1 : select_cat_in_bag_player s c0.id sel =
        ({ s with current_player := some p,
                  player_which_chose_question := some p,
                  state := State.CatInBagChoosingCost q },
         [UiRequest.SendTextToMainChat
            ("Играем с " ++ p.name ++ ". Тема: " ++ topic),
          UiRequest.CatInBagChooseCost
            [s.current_multiplier,
             s.current_multiplier * s.questions_per_topic]]) := by
      have hfindp2 := hfindp
      simp at hfindp2
      obtain ⟨x, hfindp3⟩ := hfindp2
      simp [select_cat_in_bag_player, hstate, hcp0, hfindp3, setState]
    refine ⟨_, _, heq1, by simp, by simp, by simp, ?_⟩
    have heq2 : select_cat_in_bag_cost
        { s with current_player := some p,
                 player_which_chose_question := some p,
                 state := State.CatInBagChoosingCost q }
        p.id s.current_multiplier =
        ({ s with current_player := some p,
                  player_which_chose_question := some p,
                  state := State.Answering q (Int.ofNat s.current_multiplier)
                    false },
         [UiRequest.SendTextToMainChat
            ("Выбрана стоимость " ++ toString s.current_multiplier)] ++
           format_question q ++
           [UiRequest.AskAdminYesNo ("Correct answer?")]) := by
      simp [select_cat_in_bag_cost, setState]
    refine ⟨_, _, heq2, by simp, ?_⟩
    have hpid : p.id ∈ s.players.map (fun pk => pk.1.id) := by
      have hpmem : p ∈ s.players.map Prod.fst :=
        List.mem_of_find?_eq_some hfindp
      have h2 := List.mem_map_of_mem Player.id hpmem
      simpa [List.map_map, Function.comp] using h2
    obtain ⟨ps, hup, hmapfst⟩ :=
      updateScore_some s.players p.id (-(Int.ofNat s.current_multiplier)) hpid
    have hclose := no_reply_close_single_eq
      { s with current_player := some p,
               player_which_chose_question := some p,
               state := State.Answering q (Int.ofNat s.current_multiplier) false }
      q (Int.ofNat s.current_multiplier) p p ps s.admin_user rfl rfl rfl hup rfl
    rcases map_fst_some hclose with ⟨out3, heq3⟩
    exact ⟨_, out3, heq3, by simp, by simp⟩

/-- Witness for C10 at the fixture sessions: the auction question of
`fixAuction` assigned to player 1 at cost 300, and the cat in a bag of
`fixCatInBag` handed by player 1 to player 2 at the minimum tier; in both,
an incorrect answer keeps the turn with the assigned answerer. -/
theorem single_answerer_turn_witness :
    (∃ s1 out1, update_auction_cost fixAuction fixAuction.admin_user
        ("new_1") 300 = (s1, out1) ∧
      s1.current_player = some fixP1 ∧
      s1.player_which_chose_question = some fixP1 ∧
      s1.state = State.Answering sampleQ (Int.ofNat 300) false ∧
      ∃ s2 out2, no_reply s1 fixAuction.admin_user = some (s2, out2) ∧
        s2.state = State.Pause ∧ s2.current_player = some fixP1) ∧
    (∃ s1 out1, select_cat_in_bag_player fixCatInBag fixP1.id ("new_2") =
        (s1, out1) ∧
      s1.current_player = some fixP2 ∧
      s1.player_which_chose_question = some fixP2 ∧
      s1.state = State.CatInBagChoosingCost cibQ ∧
      ∃ s2 out2, select_cat_in_bag_cost s1 fixP2.id
          fixCatInBag.current_multiplier = (s2, out2) ∧
        s2.state = State.Answering cibQ (Int.ofNat fixCatInBag.current_multiplier)
          false ∧
        ∃ s3 out3, no_reply s2 fixCatInBag.admin_user = some (s3, out3) ∧
          s3.state = State.Pause ∧ s3.current_player = some fixP2) :=
  ⟨single_answerer_turn.1 fixAuction sampleQ ("new_1") 300 fixP1
      (by decide) (by decide),
   single_answerer_turn.2 fixCatInBag ("CatInBag") cibQ fixP1 fixP2 ("new_2")
      (by decide) (by decide) (by decide)⟩

end Svoyak

namespace Svoyak

open GameState

theorem foldl_len_max (l : List ScoreTableItem) (a : Nat) :
    l.foldl (fun acc item =>
      if item.name.length > acc then item.name.length else acc) a =
    (l.map (fun item => item.name.length)).foldl max a := by
  induction l generalizing a with
  | nil => rfl
  | cons hd tl ih =>
    simp only [List.foldl, List.map]
    rw [ih]
    congr 1
    rcases le_or_lt hd.name.length a with h | h
    · rw [if_neg (by omega), Nat.max_eq_left h]
    · rw [if_pos (by omega), Nat.max_eq_right (by omega)]

theorem contains_eq_any_beq_self (qs : List Nat) (a : Nat) :
    qs.contains a = qs.any (fun q => q == a) := by
  rw [Bool.eq_iff_iff]
  simp [List.contains_eq_any_beq, List.any_beq, List.any_beq']

theorem string_foldl_append (xs : List String) (a : String) :
    xs.foldl (fun r s => r ++ s) a = a ++ xs.foldl (fun r s => r ++ s) "" := by
  induction xs generalizing a with
  | nil => simp
  | cons hd tl ih =>
    simp only [List.foldl]
    rw [ih, ih ("" ++ hd)]
    simp [String.append_assoc]

theorem string_join_cons (x : String) (xs : List String) :
    String.join (x :: xs) = x ++ String.join xs := by
  show (x :: xs).foldl (fun r s => r ++ s) "" = _
  simp only [List.foldl]
  rw [string_foldl_append]
  simp [String.join]

theorem foldl_marks (scores qs : List Nat) (acc : String) :
    scores.foldl (fun row score =>
      (if qs.any (fun q => q == score) then row ++ "x" else row ++ " ") ++ "|")
      acc =
    acc ++ String.join (scores.map (fun c =>
      (if qs.contains c then "x" else " ") ++ "|")) := by
  induction scores generalizing acc with
  | nil => simp [String.join]
  | cons hd tl ih =>
    simp only [List.foldl, List.map]
    rw [ih, string_join_cons, contains_eq_any_beq_self]
    cases h : qs.any (fun q => q == hd) <;>
      simp [h, String.append_assoc]

theorem score_table_row_eq (item : ScoreTableItem) (scores : List Nat)
    (w : Nat) :
    (scores.foldl (fun row score =>
      (if item.questions.any (fun q => q == score) then row ++ "x"
       else row ++ " ") ++ "|")
      ((("|" ++ item.name) ++
        String.mk (List.replicate (w + 1 - ("|" ++ item.name).length) ' ')) ++
        "|")) =
    "|" ++ item.name ++ String.mk (List.replicate (w - item.name.length) ' ') ++
      "|" ++
      String.join (scores.map (fun c =>
        (if item.questions.contains c then "x" else " ") ++ "|")) := by
  rw [foldl_marks]
  have hlen : ("|" ++ item.name).length = 1 + item.name.length := by
    rw [String.length_append, show ("|" : String).length = 1 from rfl]
  rw [hlen]
  have hsub : w + 1 - (1 + item.name.length) = w - item.name.length := by
    omega
  rw [hsub]

theorem boardHas_cons (t : String) (costs : List Nat)
    (tl : List (String × List Nat)) (topic : String) (cost : Nat) :
    boardHas ((t, costs) :: tl) topic cost =
      ((t == topic && costs.contains cost) || boardHas tl topic cost) := rfl

theorem make_score_table_marks (qs : List (String × List Nat))
    (topic : String) (cost : Nat) :
    ((qs.map (fun tq =>
      ({ name := tq.1, questions := tq.2 } : ScoreTableItem))).any
      (fun it => it.name == topic && it.questions.contains cost)) =
    boardHas qs topic cost := by
  induction qs with
  | nil => rfl
  | cons hd tl ih =>
    obtain ⟨t, costs⟩ := hd
    rw [boardHas_cons]
    simp only [List.map, List.any]
    rw [ih]

/-- Counterexample for C4: in `fixBefore` the cost 100 of Sport has been
taken; the snapshot pairs Sport with the *remaining* costs 200..500 — not
with the taken cost 100 — and the rendered grid marks `x` in the columns of
the still-available costs, with a space in the taken column, the opposite
of the claimed marking. -/
theorem score_table_cex :
    make_score_table fixBefore =
      ⟨[100, 200, 300, 400, 500], [⟨"Sport", [200, 300, 400, 500]⟩]⟩ ∧
    [(⟨"Sport", [200, 300, 400, 500]⟩ : ScoreTableItem)] ≠
      [(⟨"Sport", [100]⟩ : ScoreTableItem)] ∧
    ScoreTable.to_string (make_score_table fixBefore) = "|Sport| |x|x|x|x|" ∧
    "|Sport| |x|x|x|x|" ≠ "|Sport|x| | | | |" := by
  decide

/-- C4 as amended: the snapshot pairs each topic with the list of costs
still *available* (untaken) in the active tour — a `(topic, cost)` pair is
marked in the snapshot exactly when it is available on the board — the
column costs are the tier values `tier * multiplier`, and the rendered
pipe-delimited grid has one row per topic, topic names left-justified and
padded on the right with spaces to the width of the longest name measured
in characters, with an `x` exactly in the columns of still-available costs
and a space elsewhere (taken costs included). -/
theorem score_table_spec :
    (∀ (s : GameState) (topic : String) (cost : Nat),
      ((make_score_table s).data.any
        (fun it => it.name == topic && it.questions.contains cost)) =
      costAvailable s topic cost) ∧
    (∀ s : GameState, (make_score_table s).scores =
      (List.range s.questions_per_topic).map
        (fun i => (i + 1) * s.current_multiplier)) ∧
    (∀ t : ScoreTable, ScoreTable.to_string t = scoreTableRenderSpec t) := by
  refine ⟨?_, fun s => rfl, ?_⟩
  · intro s topic cost
    exact make_score_table_marks s.questions topic cost
  · intro t
    unfold ScoreTable.to_string scoreTableRenderSpec
    dsimp only
    rw [foldl_len_max]
    congr 1
    congr 1
    funext item
    exact score_table_row_eq item t.scores
      ((t.data.map (fun item => item.name.length)).foldl max 0)

/-- Witness for C4's amended claim at the fixture snapshot. -/
theorem score_table_spec_witness :
    ((make_score_table fixBefore).data.any
      (fun it => it.name == ("Sport") && it.questions.contains 100)) =
      costAvailable fixBefore ("Sport") 100 ∧
    ScoreTable.to_string (make_score_table fixBefore) =
      scoreTableRenderSpec (make_score_table fixBefore) :=
  ⟨score_table_spec.1 fixBefore ("Sport") 100,
   score_table_spec.2.2 (make_score_table fixBefore)⟩

end Svoyak
